import Mathlib

/-!
Verification of the OpenKore bus server (Python) against its specification.

The development shallowly embeds the code of `bus_server/messages.py`,
`bus_server/base_server.py` and `bus_server/main_server.py`:

* Python `bytes` values are `List Nat` (each element a byte);
* Python `str` values are `List Nat` (the list of Unicode code points);
* Python dictionaries are insertion-ordered association lists;
* Python exceptions are modelled with `Except Unit`;
* socket writes are modelled by an oracle `ω : PyStr → Bool` giving the
  success of a write to a given client id, and the observable effects of the
  router are collected in a list of `Event`s.
-/

deriving instance DecidableEq for Except

namespace BusServer

/-- Python `str`, modelled as its list of Unicode code points. -/
abbrev PyStr := List Nat

/-- Code points of a Lean string literal (used to write Python string literals). -/
def pstr (s : String) : PyStr := s.data.map Char.toNat

/-- UTF-8 encoding of one Unicode scalar value (RFC 3629), as CPython's
`str.encode('utf-8')` emits it. -/
def utf8EncodeChar (c : Nat) : List Nat :=
  if c < 0x80 then [c]
  else if c < 0x800 then [0xC0 + c / 0x40, 0x80 + c % 0x40]
  else if c < 0x10000 then
    [0xE0 + c / 0x1000, 0x80 + c / 0x40 % 0x40, 0x80 + c % 0x40]
  else
    [0xF0 + c / 0x40000, 0x80 + c / 0x1000 % 0x40, 0x80 + c / 0x40 % 0x40, 0x80 + c % 0x40]

/-- CPython `str.encode('utf-8')`: concatenates the encodings of the code
points and raises (`UnicodeEncodeError`) on a lone surrogate or an
out-of-range code point. -/
def pyEncodeUtf8 : PyStr → Except Unit (List Nat)
  | [] => .ok []
  | c :: cs =>
    if c < 0xD800 ∨ (0xE000 ≤ c ∧ c < 0x110000) then
      (pyEncodeUtf8 cs).map (utf8EncodeChar c ++ ·)
    else .error ()

/-- Decode one UTF-8 sequence starting at byte `b0` with following bytes
`tail`; returns the scalar value and the remaining bytes.  Strict per
RFC 3629 (and CPython's strict `.decode('utf-8')`): rejects truncated
sequences, stray continuation bytes, overlong encodings, surrogates and
code points above 0x10FFFF. -/
def utf8DecodeOne (b0 : Nat) (tail : List Nat) : Except Unit (Nat × List Nat) :=
  if b0 < 0x80 then .ok (b0, tail)
  else if b0 < 0xC2 then .error ()
  else if b0 < 0xE0 then
    match tail with
    | b1 :: t =>
      if 0x80 ≤ b1 ∧ b1 < 0xC0 then .ok ((b0 - 0xC0) * 0x40 + (b1 - 0x80), t)
      else .error ()
    | [] => .error ()
  else if b0 < 0xF0 then
    match tail with
    | b1 :: b2 :: t =>
      if (0x80 ≤ b1 ∧ b1 < 0xC0) ∧ (0x80 ≤ b2 ∧ b2 < 0xC0) then
        if (b0 - 0xE0) * 0x1000 + (b1 - 0x80) * 0x40 + (b2 - 0x80) < 0x800 ∨
           (0xD800 ≤ (b0 - 0xE0) * 0x1000 + (b1 - 0x80) * 0x40 + (b2 - 0x80) ∧
            (b0 - 0xE0) * 0x1000 + (b1 - 0x80) * 0x40 + (b2 - 0x80) < 0xE000) then .error ()
        else .ok ((b0 - 0xE0) * 0x1000 + (b1 - 0x80) * 0x40 + (b2 - 0x80), t)
      else .error ()
    | _ => .error ()
  else if b0 < 0xF5 then
    match tail with
    | b1 :: b2 :: b3 :: t =>
      if (0x80 ≤ b1 ∧ b1 < 0xC0) ∧ (0x80 ≤ b2 ∧ b2 < 0xC0) ∧ (0x80 ≤ b3 ∧ b3 < 0xC0) then
        if (b0 - 0xF0) * 0x40000 + (b1 - 0x80) * 0x1000 + (b2 - 0x80) * 0x40 + (b3 - 0x80)
             < 0x10000 ∨
           0x110000 ≤ (b0 - 0xF0) * 0x40000 + (b1 - 0x80) * 0x1000 + (b2 - 0x80) * 0x40 +
             (b3 - 0x80) then .error ()
        else .ok ((b0 - 0xF0) * 0x40000 + (b1 - 0x80) * 0x1000 + (b2 - 0x80) * 0x40 +
             (b3 - 0x80), t)
      else .error ()
    | _ => .error ()
  else .error ()

/-- Fuel-driven driver for `utf8DecodeOne` (one unit of fuel per decoded
scalar; a byte count is always enough fuel). -/
def utf8DecodeLoop : Nat → List Nat → Except Unit PyStr
  | _, [] => .ok []
  | 0, _ :: _ => .error ()
  | fuel + 1, b0 :: tail =>
    match utf8DecodeOne b0 tail with
    | .error _ => .error ()
    | .ok (c, rest) => (utf8DecodeLoop fuel rest).map (c :: ·)

/-- CPython `bytes.decode('utf-8')` (strict). -/
def utf8Decode (l : List Nat) : Except Unit PyStr := utf8DecodeLoop l.length l

theorem utf8DecodeLoop_nil (fuel : Nat) : utf8DecodeLoop fuel [] = .ok [] := by
  cases fuel <;> rfl

theorem utf8DecodeLoop_cons (fuel b0 : Nat) (tail : List Nat) :
    utf8DecodeLoop (fuel + 1) (b0 :: tail) =
      match utf8DecodeOne b0 tail with
      | .error _ => .error ()
      | .ok (c, rest) => (utf8DecodeLoop fuel rest).map (c :: ·) := rfl

theorem utf8DecodeOne_length (b0 : Nat) (tail : List Nat) (c : Nat) (rest : List Nat)
    (h : utf8DecodeOne b0 tail = .ok (c, rest)) : rest.length ≤ tail.length := by
  unfold utf8DecodeOne at h
  repeat any_goals split at h
  all_goals simp at h
  all_goals obtain ⟨h1, h2⟩ := h
  all_goals subst h2
  all_goals try simp only [List.length_cons]
  all_goals omega

theorem utf8DecodeLoop_congr : ∀ (fuel₁ fuel₂ : Nat) (l : List Nat),
    l.length ≤ fuel₁ → l.length ≤ fuel₂ → utf8DecodeLoop fuel₁ l = utf8DecodeLoop fuel₂ l
  | _, _, [], _, _ => by
    rw [utf8DecodeLoop_nil, utf8DecodeLoop_nil]
  | 0, _, _ :: _, h₁, _ => absurd h₁ (by simp)
  | _ + 1, 0, _ :: _, _, h₂ => absurd h₂ (by simp)
  | f₁ + 1, f₂ + 1, b0 :: tail, h₁, h₂ => by
    rw [utf8DecodeLoop_cons, utf8DecodeLoop_cons]
    cases h : utf8DecodeOne b0 tail with
    | error e => rfl
    | ok p =>
      obtain ⟨c, rest⟩ := p
      have hr := utf8DecodeOne_length b0 tail c rest h
      simp only [List.length_cons] at h₁ h₂
      change (utf8DecodeLoop f₁ rest).map (c :: ·) = (utf8DecodeLoop f₂ rest).map (c :: ·)
      rw [utf8DecodeLoop_congr f₁ f₂ rest (by omega) (by omega)]

theorem utf8DecodeOne_encodeChar (c : Nat) (hv : c < 0xD800 ∨ (0xE000 ≤ c ∧ c < 0x110000))
    (rest : List Nat) :
    ∃ b0 t, utf8EncodeChar c ++ rest = b0 :: t ∧ utf8DecodeOne b0 t = .ok (c, rest) := by
  rcases Nat.lt_or_ge c 0x80 with h1 | h1
  · refine ⟨c, rest, by simp [utf8EncodeChar, h1], ?_⟩
    unfold utf8DecodeOne
    rw [if_pos h1]
  · rcases Nat.lt_or_ge c 0x800 with h2 | h2
    · refine ⟨0xC0 + c / 0x40, (0x80 + c % 0x40) :: rest, ?_, ?_⟩
      · unfold utf8EncodeChar
        rw [if_neg (by omega), if_pos h2]
        rfl
      · unfold utf8DecodeOne
        rw [if_neg (by omega), if_neg (by omega), if_pos (by omega)]
        show (if 0x80 ≤ 0x80 + c % 0x40 ∧ 0x80 + c % 0x40 < 0xC0 then _ else _) = _
        rw [if_pos (by omega)]
        have : (0xC0 + c / 0x40 - 0xC0) * 0x40 + (0x80 + c % 0x40 - 0x80) = c := by omega
        rw [this]
    · rcases Nat.lt_or_ge c 0x10000 with h3 | h3
      · refine ⟨0xE0 + c / 0x1000, (0x80 + c / 0x40 % 0x40) :: (0x80 + c % 0x40) :: rest, ?_, ?_⟩
        · unfold utf8EncodeChar
          rw [if_neg (by omega), if_neg (by omega), if_pos h3]
          rfl
        · unfold utf8DecodeOne
          rw [if_neg (by omega), if_neg (by omega), if_neg (by omega), if_pos (by omega)]
          show (if (0x80 ≤ 0x80 + c / 0x40 % 0x40 ∧ 0x80 + c / 0x40 % 0x40 < 0xC0) ∧
                   (0x80 ≤ 0x80 + c % 0x40 ∧ 0x80 + c % 0x40 < 0xC0) then _ else _) = _
          rw [if_pos (by constructor <;> constructor <;> omega)]
          show (if _ ∨ _ then _ else _) = _
          have hc : (0xE0 + c / 0x1000 - 0xE0) * 0x1000 + (0x80 + c / 0x40 % 0x40 - 0x80) * 0x40 +
              (0x80 + c % 0x40 - 0x80) = c := by omega
          rw [hc, if_neg (by omega)]
      · refine ⟨0xF0 + c / 0x40000, (0x80 + c / 0x1000 % 0x40) :: (0x80 + c / 0x40 % 0x40) ::
            (0x80 + c % 0x40) :: rest, ?_, ?_⟩
        · unfold utf8EncodeChar
          rw [if_neg (by omega), if_neg (by omega), if_neg (by omega)]
          rfl
        · unfold utf8DecodeOne
          rw [if_neg (by omega), if_neg (by omega), if_neg (by omega), if_neg (by omega),
              if_pos (by omega)]
          show (if (0x80 ≤ 0x80 + c / 0x1000 % 0x40 ∧ 0x80 + c / 0x1000 % 0x40 < 0xC0) ∧
                   (0x80 ≤ 0x80 + c / 0x40 % 0x40 ∧ 0x80 + c / 0x40 % 0x40 < 0xC0) ∧
                   (0x80 ≤ 0x80 + c % 0x40 ∧ 0x80 + c % 0x40 < 0xC0) then _ else _) = _
          rw [if_pos (by refine ⟨⟨by omega, by omega⟩, ⟨by omega, by omega⟩, by omega, by omega⟩)]
          show (if _ ∨ _ then _ else _) = _
          have hc : (0xF0 + c / 0x40000 - 0xF0) * 0x40000 +
              (0x80 + c / 0x1000 % 0x40 - 0x80) * 0x1000 +
              (0x80 + c / 0x40 % 0x40 - 0x80) * 0x40 + (0x80 + c % 0x40 - 0x80) = c := by omega
          rw [hc, if_neg (by omega)]

theorem utf8EncodeChar_length_pos (c : Nat) : 0 < (utf8EncodeChar c).length := by
  unfold utf8EncodeChar
  split
  · simp
  · split
    · simp
    · split <;> simp

/-- Decoding inverts encoding: `bytes.decode('utf-8')` recovers exactly the
string that `str.encode('utf-8')` successfully serialized. -/
theorem utf8Decode_pyEncodeUtf8 : ∀ (s : PyStr) (bs : List Nat),
    pyEncodeUtf8 s = .ok bs → utf8Decode bs = .ok s := by
  have key : ∀ (s : PyStr) (bs : List Nat) (fuel : Nat),
      pyEncodeUtf8 s = .ok bs → bs.length ≤ fuel → utf8DecodeLoop fuel bs = .ok s := by
    intro s
    induction s with
    | nil =>
      intro bs fuel h _
      simp only [pyEncodeUtf8, Except.ok.injEq] at h
      subst h
      exact utf8DecodeLoop_nil fuel
    | cons c cs ih =>
      intro bs fuel h hfuel
      unfold pyEncodeUtf8 at h
      split at h
      · rename_i hv
        cases hcs : pyEncodeUtf8 cs with
        | error e => rw [hcs] at h; exact absurd h (by simp [Except.map])
        | ok tailbs =>
          rw [hcs] at h
          simp only [Except.map, Except.ok.injEq] at h
          subst h
          obtain ⟨b0, t, hshape, hone⟩ := utf8DecodeOne_encodeChar c hv tailbs
          have hk := utf8EncodeChar_length_pos c
          rw [List.length_append] at hfuel
          obtain ⟨fuel', rfl⟩ : ∃ f, fuel = f + 1 := by
            rcases fuel with _ | f
            · omega
            · exact ⟨f, rfl⟩
          rw [hshape, utf8DecodeLoop_cons, hone]
          have htb : tailbs.length ≤ fuel' := by omega
          show (utf8DecodeLoop fuel' tailbs).map (c :: ·) = Except.ok (c :: cs)
          rw [ih tailbs fuel' hcs htb]
          rfl
      · exact absurd h (by simp)
  intro s bs h
  exact key s bs bs.length h (Nat.le_refl _)

/-! ## Python values and the SSM codec (`bus_server/messages.py`) -/

/-- Dynamic Python values as they occur as message-argument values.  The
constructors mirror the `isinstance` chain of `_serialize_value`: `int`
(which includes Python `bool`: `True`/`False` are the ints 1/0), `str`,
`bytes`, `None`, and a catch-all for any other object, identified by its
`str()` rendering. -/
inductive PyVal where
  | int (n : Int)
  | str (s : PyStr)
  | bytes (b : List Nat)
  | none
  | other (printed : PyStr)
deriving DecidableEq, Repr

/-- Python dict with string keys, modelled as an insertion-ordered
association list (CPython dicts preserve insertion order). -/
abbrev Args := List (PyStr × PyVal)

/-- Python `d[k] = v`: replaces the value in place if `k` is present,
otherwise appends the pair. -/
def dictSet (args : Args) (k : PyStr) (v : PyVal) : Args :=
  match args with
  | [] => [(k, v)]
  | (k', v') :: rest => if k' = k then (k, v) :: rest else (k', v') :: dictSet rest k v

/-- Python `d.get(k)`: first (and only, for a real dict) binding of `k`. -/
def dictGet (args : Args) (k : PyStr) : Option PyVal :=
  match args with
  | [] => Option.none
  | (k', v') :: rest => if k' = k then Option.some v' else dictGet rest k

/-- `struct.pack('>I', v)`: 4 big-endian bytes; `struct.error` outside
`[0, 2^32)` (Python ints are unbounded, so the check is real). -/
def packU32 (v : Int) : Except Unit (List Nat) :=
  if 0 ≤ v ∧ v < 4294967296 then
    .ok [v.toNat / 16777216 % 256, v.toNat / 65536 % 256, v.toNat / 256 % 256, v.toNat % 256]
  else .error ()

/-- `struct.unpack('>I', b)`: requires exactly 4 bytes. -/
def unpackU32 (b : List Nat) : Except Unit Nat :=
  match b with
  | [b0, b1, b2, b3] => .ok (b0 * 16777216 + b1 * 65536 + b2 * 256 + b3)
  | _ => .error ()

/-- `struct.pack('B', n)`: one byte; `struct.error` outside `[0, 256)`. -/
def packB (n : Nat) : Except Unit (List Nat) :=
  if n < 256 then .ok [n] else .error ()

/-- `_to_int24(value)`: `struct.pack('>I', value)[1:4]` — the last three
bytes of the 32-bit encoding, silently truncating values `≥ 2^24` (and
raising `struct.error` only at `≥ 2^32`). -/
def to_int24 (v : Nat) : Except Unit (List Nat) :=
  (packU32 (v : Int)).map (·.drop 1)

/-- `_from_int24(data)`: `struct.unpack('>I', b'\x00' + data)`, which
requires `data` to hold exactly three bytes. -/
def from_int24 (b : List Nat) : Except Unit Nat := unpackU32 (0 :: b)

/-- `_serialize_value(value)`: choose the wire type and payload.
Types: 0 = binary, 1 = UTF-8 string, 2 = unsigned integer.  The branch
order mirrors the source: `None` first, then `int`, `str`, `bytes`, and a
`str(value)` fallback for everything else. -/
def serialize_value : PyVal → Except Unit (Nat × List Nat)
  | .none => .ok (0, [])
  | .int n => (packU32 n).map ((2, ·))
  | .str s => (pyEncodeUtf8 s).map ((1, ·))
  | .bytes b => .ok (0, b)
  | .other printed => (pyEncodeUtf8 printed).map ((1, ·))

/-- `_unserialize_value(value_type, data)`. -/
def unserialize_value (value_type : Nat) (data : List Nat) : Except Unit PyVal :=
  if value_type = 0 then .ok (.bytes data)
  else if value_type = 1 then (utf8Decode data).map .str
  else if value_type = 2 then
    if data.length = 4 then (unpackU32 data).map (fun n => .int n)
    else .error ()
  else .error ()

/-- The key/value body of `_serialize_ssm`: for each pair, emit
`key_length + key + value_type + value_length(24-bit) + value`. -/
def serializeBody : Args → Except Unit (List Nat)
  | [] => .ok []
  | (key, value) :: rest => do
    let key_bytes ← pyEncodeUtf8 key
    let (value_type, value_data) ← serialize_value value
    let klen ← packB key_bytes.length
    let tbyte ← packB value_type
    let lenb ← to_int24 value_data.length
    let tail ← serializeBody rest
    .ok (klen ++ key_bytes ++ tbyte ++ lenb ++ value_data ++ tail)

/-- `_serialize_ssm(message_id, args)`: header
`pack('>I B B', 0, 0, len(mid)) + mid` followed by the body, then the
4-byte total length is patched over the leading zeros. -/
def serialize_ssm (message_id : PyStr) (args : Args) : Except Unit (List Nat) := do
  let mid_bytes ← pyEncodeUtf8 message_id
  let midlen ← packB mid_bytes.length
  let header := [0, 0, 0, 0] ++ [0] ++ midlen ++ mid_bytes
  let body ← serializeBody args
  let total_length := (header ++ body).length
  let lenbytes ← packU32 (total_length : Int)
  .ok (lenbytes ++ (header ++ body).drop 4)

/-- Python `data[start:stop]` (clamping, never raising). -/
def pySlice (data : List Nat) (start stop : Nat) : List Nat :=
  (data.drop start).take (stop - start)

/-- `struct.unpack('B', data[off:off+1])`: raises unless the slice holds
exactly one byte. -/
def readByte (data : List Nat) (off : Nat) : Except Unit Nat :=
  match pySlice data off (off + 1) with
  | [b] => .ok b
  | _ => .error ()

/-- The `while offset < msg_len` argument loop of `_unserialize_ssm`.
Fuel only bounds the iteration count; `msg_len + 1` is always enough
because every iteration advances `offset` by at least 5. -/
def parseArgsLoop : Nat → List Nat → Nat → Nat → Args → Except Unit Args
  | 0, _, _, _, _ => .error ()
  | fuel + 1, data, msg_len, offset, args =>
    if offset < msg_len then do
      let key_len ← readByte data offset
      let key ← utf8Decode (pySlice data (offset + 1) (offset + 1 + key_len))
      let value_type ← readByte data (offset + 1 + key_len)
      let value_len ← from_int24 (pySlice data (offset + 1 + key_len + 1)
        (offset + 1 + key_len + 1 + 3))
      let value_data := pySlice data (offset + 1 + key_len + 4)
        (offset + 1 + key_len + 4 + value_len)
      let v ← unserialize_value value_type value_data
      parseArgsLoop fuel data msg_len (offset + 1 + key_len + 4 + value_len) (dictSet args key v)
    else .ok args

/-- `_unserialize_ssm(data)`. -/
def unserialize_ssm (data : List Nat) : Except Unit (PyStr × Args) :=
  if data.length < 4 then .error ()
  else do
    let msg_len ← unpackU32 (pySlice data 0 4)
    if data.length ≠ msg_len then .error ()
    else do
      let options ← readByte data 4
      let mid_len ← readByte data 5
      let message_id ← utf8Decode (pySlice data 6 (6 + mid_len))
      let args ← if options = 0 then parseArgsLoop (msg_len + 1) data msg_len (6 + mid_len) []
                 else .ok []
      .ok (message_id, args)

/-- `serialize(message_id, args)` (module-level wrapper). -/
def serialize (message_id : PyStr) (args : Args) : Except Unit (List Nat) :=
  serialize_ssm message_id args

/-- `deserialize(data)` (module-level wrapper). -/
def deserialize (data : List Nat) : Except Unit (PyStr × Args) :=
  unserialize_ssm data

/-- `Bus.MessageParser` state: the rolling receive buffer. -/
structure MessageParser where
  buffer : List Nat
deriving DecidableEq, Repr

/-- `MessageParser.add(data)`. -/
def MessageParser.add (p : MessageParser) (data : List Nat) : MessageParser :=
  ⟨p.buffer ++ data⟩

/-- `MessageParser.read_next()`: returns the parsed message (or `none` if
no complete frame is buffered) together with the updated parser.  Any
exception while handling a complete frame is caught, the buffer is
cleared, and `None` is returned — the connection is left untouched. -/
def MessageParser.read_next (p : MessageParser) : Option (PyStr × Args) × MessageParser :=
  if p.buffer.length < 4 then (Option.none, p)
  else
    match unpackU32 (pySlice p.buffer 0 4) with
    | .error _ => (Option.none, ⟨[]⟩)
    | .ok msg_len =>
      if p.buffer.length < msg_len then (Option.none, p)
      else
        match unserialize_ssm (pySlice p.buffer 0 msg_len) with
        | .ok m => (Option.some m, ⟨p.buffer.drop msg_len⟩)
        | .error _ => (Option.none, ⟨[]⟩)

/-! ## Helper lemmas for the codec proofs -/

theorem except_bind_ok {α β : Type} (a : α) (f : α → Except Unit β) :
    (Except.ok a >>= f) = f a := rfl

theorem except_bind_err {α β : Type} (e : Unit) (f : α → Except Unit β) :
    ((Except.error e : Except Unit α) >>= f) = .error () := rfl

theorem packU32_nat (n : Nat) (h : n < 4294967296) :
    packU32 (n : Int) =
      .ok [n / 16777216 % 256, n / 65536 % 256, n / 256 % 256, n % 256] := by
  unfold packU32
  rw [if_pos ⟨Int.natCast_nonneg n, by exact_mod_cast h⟩]
  simp [Int.toNat_natCast]

theorem unpackU32_bytes (n : Nat) (h : n < 4294967296) :
    unpackU32 [n / 16777216 % 256, n / 65536 % 256, n / 256 % 256, n % 256] = .ok n := by
  show Except.ok (n / 16777216 % 256 * 16777216 + n / 65536 % 256 * 65536 +
    n / 256 % 256 * 256 + n % 256) = Except.ok n
  have he : n / 16777216 % 256 * 16777216 + n / 65536 % 256 * 65536 +
      n / 256 % 256 * 256 + n % 256 = n := by omega
  rw [he]

theorem packU32_ok_shape (v : Int) (b : List Nat) (h : packU32 v = .ok b) :
    0 ≤ v ∧ v < 4294967296 ∧
      b = [v.toNat / 16777216 % 256, v.toNat / 65536 % 256, v.toNat / 256 % 256, v.toNat % 256] := by
  unfold packU32 at h
  split at h
  · rename_i hr
    cases h
    exact ⟨hr.1, hr.2, rfl⟩
  · exact absurd h (by simp)

theorem to_int24_small (n : Nat) (h : n < 16777216) :
    to_int24 n = .ok [n / 65536 % 256, n / 256 % 256, n % 256] := by
  unfold to_int24
  rw [packU32_nat n (by omega)]
  rfl

theorem from_int24_small (n : Nat) (h : n < 16777216) :
    from_int24 [n / 65536 % 256, n / 256 % 256, n % 256] = .ok n := by
  show Except.ok (0 * 16777216 + n / 65536 % 256 * 65536 + n / 256 % 256 * 256 + n % 256) =
    Except.ok n
  have he : 0 * 16777216 + n / 65536 % 256 * 65536 + n / 256 % 256 * 256 + n % 256 = n := by
    omega
  rw [he]

theorem pySlice_at (pre mid post : List Nat) :
    pySlice (pre ++ (mid ++ post)) pre.length (pre.length + mid.length) = mid := by
  unfold pySlice
  rw [List.drop_left, Nat.add_sub_cancel_left, List.take_left]

theorem readByte_at (pre : List Nat) (b : Nat) (post : List Nat) :
    readByte (pre ++ b :: post) pre.length = .ok b := by
  unfold readByte
  have h := pySlice_at pre [b] post
  simp only [List.length_cons, List.length_nil, List.singleton_append] at h
  rw [h]

theorem packB_ok (n : Nat) (b : List Nat) (h : packB n = .ok b) : n < 256 ∧ b = [n] := by
  unfold packB at h
  split at h
  · cases h; exact ⟨by assumption, rfl⟩
  · exact absurd h (by simp)

theorem dictSet_fresh (args : Args) (k : PyStr) (v : PyVal)
    (h : ∀ p ∈ args, p.1 ≠ k) : dictSet args k v = args ++ [(k, v)] := by
  induction args with
  | nil => rfl
  | cons hd tl ih =>
    unfold dictSet
    rw [if_neg (h hd (List.mem_cons_self hd tl))]
    rw [ih (fun p hp => h p (List.mem_cons_of_mem hd hp))]
    rfl

theorem dictGet_set_self (args : Args) (k : PyStr) (v : PyVal) :
    dictGet (dictSet args k v) k = some v := by
  induction args with
  | nil => simp [dictSet, dictGet]
  | cons hd tl ih =>
    obtain ⟨k', v'⟩ := hd
    unfold dictSet
    by_cases h : k' = k
    · rw [if_pos h]
      simp [dictGet]
    · rw [if_neg h]
      unfold dictGet
      rw [if_neg h]
      exact ih

theorem dictGet_set_ne (args : Args) (k k' : PyStr) (v : PyVal) (h : k ≠ k') :
    dictGet (dictSet args k v) k' = dictGet args k' := by
  induction args with
  | nil => simp [dictSet, dictGet, h]
  | cons hd tl ih =>
    obtain ⟨k₀, v₀⟩ := hd
    unfold dictSet
    by_cases h0 : k₀ = k
    · rw [if_pos h0]
      unfold dictGet
      rw [if_neg h, if_neg (h0 ▸ h)]
    · rw [if_neg h0]
      unfold dictGet
      by_cases h1 : k₀ = k'
      · rw [if_pos h1, if_pos h1]
      · rw [if_neg h1, if_neg h1]
        exact ih

/-- The value kinds admitted on the wire by §4.1: unsigned 32-bit integer,
UTF-8 string, or raw bytes. -/
def wireVal : PyVal → Prop
  | .int _ => True
  | .str _ => True
  | .bytes _ => True
  | .none => False
  | .other _ => False

theorem unserialize_serialize_value (v : PyVal) (t : Nat) (d : List Nat)
    (hw : wireVal v) (h : serialize_value v = .ok (t, d)) :
    unserialize_value t d = .ok v := by
  cases v with
  | int n =>
    rw [show serialize_value (.int n) = (packU32 n).map ((2, ·)) from rfl] at h
    cases hp : packU32 n with
    | error e => rw [hp] at h; exact absurd h (by simp [Except.map])
    | ok b =>
      rw [hp] at h
      simp only [Except.map, Except.ok.injEq, Prod.mk.injEq] at h
      obtain ⟨ht, hd⟩ := h
      obtain ⟨hn0, hn1, hb⟩ := packU32_ok_shape n b hp
      subst ht; subst hd; subst hb
      unfold unserialize_value
      rw [if_neg (by omega), if_neg (by omega), if_pos rfl, if_pos (by simp)]
      rw [unpackU32_bytes n.toNat (by omega)]
      simp [Except.map, Int.toNat_of_nonneg hn0]
  | str s =>
    rw [show serialize_value (.str s) = (pyEncodeUtf8 s).map ((1, ·)) from rfl] at h
    cases hp : pyEncodeUtf8 s with
    | error e => rw [hp] at h; exact absurd h (by simp [Except.map])
    | ok b =>
      rw [hp] at h
      simp only [Except.map, Except.ok.injEq, Prod.mk.injEq] at h
      obtain ⟨ht, hd⟩ := h
      subst ht; subst hd
      unfold unserialize_value
      rw [if_neg (by omega), if_pos rfl]
      rw [utf8Decode_pyEncodeUtf8 s _ hp]
      rfl
  | bytes b =>
    rw [show serialize_value (.bytes b) = .ok (0, b) from rfl] at h
    simp only [Except.ok.injEq, Prod.mk.injEq] at h
    obtain ⟨ht, hd⟩ := h
    subst ht; subst hd
    rfl
  | none => exact absurd hw (by simp [wireVal])
  | other r => exact absurd hw (by simp [wireVal])

theorem pySlice_decompose (data pre mid post : List Nat) (a b : Nat)
    (hdata : data = pre ++ (mid ++ post)) (ha : a = pre.length)
    (hb : b = pre.length + mid.length) :
    pySlice data a b = mid := by
  subst hdata; subst ha; subst hb
  exact pySlice_at pre mid post

theorem readByte_decompose (data pre post : List Nat) (b : Nat) (a : Nat)
    (hdata : data = pre ++ b :: post) (ha : a = pre.length) :
    readByte data a = .ok b := by
  subst hdata; subst ha
  exact readByte_at pre b post

theorem to_int24_ok (v : Nat) (b : List Nat) (h : to_int24 v = .ok b) :
    v < 4294967296 ∧ b = [v / 65536 % 256, v / 256 % 256, v % 256] := by
  unfold to_int24 at h
  cases hp : packU32 (v : Int) with
  | error e => rw [hp] at h; exact absurd h (by simp [Except.map])
  | ok p =>
    rw [hp] at h
    simp only [Except.map, Except.ok.injEq] at h
    obtain ⟨_, hv, hshape⟩ := packU32_ok_shape _ _ hp
    rw [Int.toNat_natCast] at hshape
    subst hshape
    refine ⟨by exact_mod_cast hv, ?_⟩
    rw [← h]
    rfl

theorem except_bind_eq_ok {α β : Type} {x : Except Unit α} {f : α → Except Unit β} {b : β}
    (h : (x >>= f) = .ok b) : ∃ a, x = .ok a ∧ f a = .ok b := by
  cases x with
  | error e => exact absurd h (by simp [except_bind_err])
  | ok a => exact ⟨a, rfl, h⟩

theorem serializeBody_cons (k : PyStr) (v : PyVal) (rest : Args) (body : List Nat)
    (h : serializeBody ((k, v) :: rest) = .ok body) :
    ∃ kb t d tailB, pyEncodeUtf8 k = .ok kb ∧ serialize_value v = .ok (t, d) ∧
      kb.length < 256 ∧ t < 256 ∧ d.length < 4294967296 ∧ serializeBody rest = .ok tailB ∧
      body = [kb.length] ++ kb ++ [t] ++
        [d.length / 65536 % 256, d.length / 256 % 256, d.length % 256] ++ d ++ tailB := by
  obtain ⟨kb, hkb, h⟩ := except_bind_eq_ok h
  obtain ⟨⟨t, d⟩, hsv, h⟩ := except_bind_eq_ok h
  obtain ⟨klenb, hpb, h⟩ := except_bind_eq_ok h
  obtain ⟨tb, hpt, h⟩ := except_bind_eq_ok h
  obtain ⟨lb, hlb, h⟩ := except_bind_eq_ok h
  obtain ⟨tailB, htl, h⟩ := except_bind_eq_ok h
  have h := Except.ok.inj h
  obtain ⟨hk1, hk2⟩ := packB_ok _ _ hpb
  obtain ⟨ht1, ht2⟩ := packB_ok _ _ hpt
  obtain ⟨hd1, hd2⟩ := to_int24_ok _ _ hlb
  refine ⟨kb, t, d, tailB, hkb, hsv, hk1, ht1, hd1, htl, ?_⟩
  rw [← h, hk2, ht2, hd2]

theorem serializeBody_length : ∀ (a : Args) (body : List Nat),
    serializeBody a = .ok body → a.length ≤ body.length
  | [], body, h => by
    simp only [serializeBody, Except.ok.injEq] at h
    subst h
    exact Nat.le_refl _
  | (k, v) :: rest, body, h => by
    obtain ⟨kb, t, d, tailB, _, _, _, _, _, htl, hshape⟩ := serializeBody_cons k v rest body h
    have := serializeBody_length rest tailB htl
    subst hshape
    simp only [List.length_cons, List.length_append]
    omega

theorem parseArgsLoop_succ (fuel : Nat) (data : List Nat) (msg_len offset : Nat) (args : Args) :
    parseArgsLoop (fuel + 1) data msg_len offset args =
      if offset < msg_len then do
        let key_len ← readByte data offset
        let key ← utf8Decode (pySlice data (offset + 1) (offset + 1 + key_len))
        let value_type ← readByte data (offset + 1 + key_len)
        let value_len ← from_int24 (pySlice data (offset + 1 + key_len + 1)
          (offset + 1 + key_len + 1 + 3))
        let value_data := pySlice data (offset + 1 + key_len + 4)
          (offset + 1 + key_len + 4 + value_len)
        let v ← unserialize_value value_type value_data
        parseArgsLoop fuel data msg_len (offset + 1 + key_len + 4 + value_len)
          (dictSet args key v)
      else .ok args := rfl

theorem parseArgsLoop_step (fuel : Nat) (data : List Nat) (msg_len offset : Nat) (args : Args)
    (klen : Nat) (key : PyStr) (vt vlen : Nat) (v : PyVal)
    (hlt : offset < msg_len)
    (h1 : readByte data offset = .ok klen)
    (h2 : utf8Decode (pySlice data (offset + 1) (offset + 1 + klen)) = .ok key)
    (h3 : readByte data (offset + 1 + klen) = .ok vt)
    (h4 : from_int24 (pySlice data (offset + 1 + klen + 1) (offset + 1 + klen + 1 + 3)) =
      .ok vlen)
    (h5 : unserialize_value vt
      (pySlice data (offset + 1 + klen + 4) (offset + 1 + klen + 4 + vlen)) = .ok v) :
    parseArgsLoop (fuel + 1) data msg_len offset args =
      parseArgsLoop fuel data msg_len (offset + 1 + klen + 4 + vlen) (dictSet args key v) := by
  rw [parseArgsLoop_succ, if_pos hlt, h1]
  simp only [except_bind_ok]
  rw [h2]
  simp only [except_bind_ok]
  rw [h3]
  simp only [except_bind_ok]
  rw [h4]
  simp only [except_bind_ok]
  rw [h5]
  simp only [except_bind_ok]

theorem parseArgsLoop_serializeBody :
    ∀ (a : Args) (fuel : Nat) (acc : Args) (pre body : List Nat),
      serializeBody a = .ok body →
      a.length < fuel →
      (∀ p ∈ a, ∀ t d, serialize_value p.2 = .ok (t, d) → d.length < 16777216) →
      (∀ p ∈ a, wireVal p.2) →
      ((acc ++ a).map Prod.fst).Nodup →
      parseArgsLoop fuel (pre ++ body) (pre.length + body.length) pre.length acc =
        .ok (acc ++ a)
  | [], fuel, acc, pre, body, hb, hf, _, _, _ => by
    simp only [serializeBody, Except.ok.injEq] at hb
    subst hb
    obtain ⟨f, rfl⟩ : ∃ f, fuel = f + 1 := ⟨fuel - 1, by omega⟩
    rw [parseArgsLoop_succ, if_neg (by simp)]
    simp
  | (k, v) :: rest, fuel, acc, pre, body, hb, hf, hlen, hw, hnd => by
    obtain ⟨kb, t, d, tailB, hkb, hsv, hk256, ht256, hd32, htl, hshape⟩ :=
      serializeBody_cons k v rest body hb
    obtain ⟨f, rfl⟩ : ∃ f, fuel = f + 1 := ⟨fuel - 1, by omega⟩
    have hdlen : d.length < 16777216 :=
      hlen (k, v) (List.mem_cons_self _ _) t d hsv
    have hlt : pre.length < pre.length + body.length := by
      rw [hshape]; simp
    have h1 : readByte (pre ++ body) pre.length = .ok kb.length := by
      refine readByte_decompose _ pre
        (kb ++ [t] ++ [d.length / 65536 % 256, d.length / 256 % 256, d.length % 256] ++
          d ++ tailB) kb.length pre.length ?_ rfl
      rw [hshape]; simp
    have h2 : utf8Decode (pySlice (pre ++ body) (pre.length + 1)
        (pre.length + 1 + kb.length)) = .ok k := by
      rw [pySlice_decompose (pre ++ body) (pre ++ [kb.length]) kb
        ([t] ++ [d.length / 65536 % 256, d.length / 256 % 256, d.length % 256] ++ d ++ tailB)
        _ _ (by rw [hshape]; simp) (by simp) (by simp)]
      exact utf8Decode_pyEncodeUtf8 k kb hkb
    have h3 : readByte (pre ++ body) (pre.length + 1 + kb.length) = .ok t := by
      refine readByte_decompose _ (pre ++ [kb.length] ++ kb)
        ([d.length / 65536 % 256, d.length / 256 % 256, d.length % 256] ++ d ++ tailB)
        t _ ?_ ?_
      · rw [hshape]; simp
      · simp; omega
    have h4 : from_int24 (pySlice (pre ++ body) (pre.length + 1 + kb.length + 1)
        (pre.length + 1 + kb.length + 1 + 3)) = .ok d.length := by
      rw [pySlice_decompose (pre ++ body) (pre ++ [kb.length] ++ kb ++ [t])
        [d.length / 65536 % 256, d.length / 256 % 256, d.length % 256] (d ++ tailB)
        _ _ (by rw [hshape]; simp) (by simp; omega) (by simp; omega)]
      exact from_int24_small d.length hdlen
    have h5 : unserialize_value t (pySlice (pre ++ body)
        (pre.length + 1 + kb.length + 4) (pre.length + 1 + kb.length + 4 + d.length)) =
        .ok v := by
      rw [pySlice_decompose (pre ++ body)
        (pre ++ [kb.length] ++ kb ++ [t] ++
          [d.length / 65536 % 256, d.length / 256 % 256, d.length % 256]) d tailB
        _ _ (by rw [hshape]; simp) (by simp; omega) (by simp; omega)]
      exact unserialize_serialize_value v t d (hw (k, v) (List.mem_cons_self _ _)) hsv
    rw [parseArgsLoop_step f (pre ++ body) (pre.length + body.length) pre.length acc
      kb.length k t d.length v hlt h1 h2 h3 h4 h5]
    have hfresh : ∀ p ∈ acc, p.1 ≠ k := by
      intro p hp hcontra
      rw [List.map_append] at hnd
      have hdisj := (List.nodup_append.mp hnd).2.2
      exact hdisj (List.mem_map_of_mem Prod.fst hp)
        (by rw [List.map_cons]; exact hcontra ▸ List.mem_cons_self _ _)
    rw [dictSet_fresh acc k v hfresh]
    have hdata : pre ++ body =
        (pre ++ [kb.length] ++ kb ++ [t] ++
          [d.length / 65536 % 256, d.length / 256 % 256, d.length % 256] ++ d) ++ tailB := by
      rw [hshape]; simp
    have hoff : pre.length + 1 + kb.length + 4 + d.length =
        (pre ++ [kb.length] ++ kb ++ [t] ++
          [d.length / 65536 % 256, d.length / 256 % 256, d.length % 256] ++ d).length := by
      simp; omega
    have hmsg : pre.length + body.length =
        (pre ++ [kb.length] ++ kb ++ [t] ++
          [d.length / 65536 % 256, d.length / 256 % 256, d.length % 256] ++ d).length +
          tailB.length := by
      rw [hshape]; simp; omega
    rw [hdata, hoff, hmsg]
    rw [parseArgsLoop_serializeBody rest f (acc ++ [(k, v)]) _ tailB htl
      (by simp at hf ⊢; omega)
      (fun p hp => hlen p (List.mem_cons_of_mem _ hp))
      (fun p hp => hw p (List.mem_cons_of_mem _ hp))
      (by simpa [List.append_assoc] using hnd)]
    simp

theorem deserialize_serialize (m : PyStr) (a : Args) (bs : List Nat)
    (hnd : (a.map Prod.fst).Nodup)
    (hw : ∀ p ∈ a, wireVal p.2)
    (hvlen : ∀ p ∈ a, ∀ t d, serialize_value p.2 = .ok (t, d) → d.length < 16777216)
    (hs : serialize m a = .ok bs) :
    deserialize bs = .ok (m, a) := by
  obtain ⟨mb, hmb, h⟩ := except_bind_eq_ok hs
  obtain ⟨mlb, hml, h⟩ := except_bind_eq_ok h
  obtain ⟨body, hbody, h⟩ := except_bind_eq_ok h
  obtain ⟨lenb, hlen4, h⟩ := except_bind_eq_ok h
  have hbs : bs = lenb ++ (([0, 0, 0, 0] ++ [0] ++ mlb ++ mb ++ body).drop 4) :=
    (Except.ok.inj h).symm
  obtain ⟨hmb256, hmlb⟩ := packB_ok _ _ hml
  subst hmlb
  obtain ⟨hge0, hlt32, hlenshape⟩ := packU32_ok_shape _ _ hlen4
  rw [Int.toNat_natCast] at hlenshape
  subst hlenshape
  subst hbs
  have haln : a.length ≤ body.length := serializeBody_length a body hbody
  have hL32 : ([0, 0, 0, 0] ++ [0] ++ [mb.length] ++ mb ++ body).length < 4294967296 := by
    exact_mod_cast hlt32
  have hdrop : ([0, 0, 0, 0] ++ [0] ++ [mb.length] ++ mb ++ body).drop 4 =
      0 :: mb.length :: (mb ++ body) := by simp
  rw [hdrop]
  have hLval : ([0, 0, 0, 0] ++ [0] ++ [mb.length] ++ mb ++ body).length =
      6 + mb.length + body.length := by simp; omega
  rw [hLval] at hL32 ⊢
  unfold deserialize unserialize_ssm
  rw [if_neg (by simp only [List.length_append, List.length_cons, List.length_nil]; omega)]
  rw [pySlice_decompose _ []
      [(6 + mb.length + body.length) / 16777216 % 256,
       (6 + mb.length + body.length) / 65536 % 256,
       (6 + mb.length + body.length) / 256 % 256,
       (6 + mb.length + body.length) % 256]
      (0 :: mb.length :: (mb ++ body)) 0 4 (by simp) rfl (by simp)]
  rw [unpackU32_bytes _ hL32]
  simp only [except_bind_ok]
  rw [if_neg (by simp only [ne_eq, List.length_append, List.length_cons, List.length_nil,
    Decidable.not_not]; omega)]
  rw [readByte_decompose _
      [(6 + mb.length + body.length) / 16777216 % 256,
       (6 + mb.length + body.length) / 65536 % 256,
       (6 + mb.length + body.length) / 256 % 256,
       (6 + mb.length + body.length) % 256]
      (mb.length :: (mb ++ body)) 0 4 (by simp) (by simp)]
  simp only [except_bind_ok]
  rw [readByte_decompose _
      [(6 + mb.length + body.length) / 16777216 % 256,
       (6 + mb.length + body.length) / 65536 % 256,
       (6 + mb.length + body.length) / 256 % 256,
       (6 + mb.length + body.length) % 256, 0]
      (mb ++ body) mb.length 5 (by simp) (by simp)]
  simp only [except_bind_ok]
  rw [pySlice_decompose _
      [(6 + mb.length + body.length) / 16777216 % 256,
       (6 + mb.length + body.length) / 65536 % 256,
       (6 + mb.length + body.length) / 256 % 256,
       (6 + mb.length + body.length) % 256, 0, mb.length]
      mb body 6 (6 + mb.length) (by simp) (by simp) (by simp)]
  rw [utf8Decode_pyEncodeUtf8 m mb hmb]
  simp only [except_bind_ok]
  rw [if_pos trivial]
  generalize hP : ([(6 + mb.length + body.length) / 16777216 % 256,
       (6 + mb.length + body.length) / 65536 % 256,
       (6 + mb.length + body.length) / 256 % 256,
       (6 + mb.length + body.length) % 256] : List Nat) = P
  have hPlen : P.length = 4 := by rw [← hP]; rfl
  have hmsg : 6 + mb.length + body.length =
      (P ++ [0] ++ [mb.length] ++ mb).length + body.length := by
    simp [hPlen]; omega
  have hoff : 6 + mb.length = (P ++ [0] ++ [mb.length] ++ mb).length := by
    simp [hPlen]; omega
  have hdata : P ++ 0 :: mb.length :: (mb ++ body) =
      (P ++ [0] ++ [mb.length] ++ mb) ++ body := by simp
  rw [hmsg, hoff, hdata]
  rw [parseArgsLoop_serializeBody a _ [] _ body hbody (by omega) hvlen hw (by simpa using hnd)]
  simp only [except_bind_ok]
  simp

/-! ## The main server (`bus_server/main_server.py`, `bus_server/base_server.py`) -/

/-- Decimal rendering of a natural number (Python `str(n)`). -/
def natToDec (n : Nat) : PyStr := (Nat.toDigits 10 n).map Char.toNat

/-- Decimal rendering of a Python int (Python `str(i)`). -/
def intToDec (i : Int) : PyStr :=
  if i < 0 then 45 :: natToDec i.natAbs else natToDec i.toNat

/-- Lower-case hex digit. -/
def hexDigit (n : Nat) : Nat := if n < 10 then 48 + n else 87 + n

/-- Rendering of one byte inside `repr(bytes)`. -/
def byteReprChars (b : Nat) : PyStr :=
  if b = 92 then [92, 92]
  else if b = 39 then [92, 39]
  else if b = 9 then [92, 116]
  else if b = 10 then [92, 110]
  else if b = 13 then [92, 114]
  else if 32 ≤ b ∧ b < 127 then [b]
  else [92, 120, hexDigit (b / 16), hexDigit (b % 16)]

/-- Python `str(bytes)` = `repr(bytes)`, simplified to always use single
quotes (CPython switches to double quotes when the payload contains a
single quote but no double quote; no router behaviour depends on that). -/
def bytesReprPy (bs : List Nat) : PyStr := pstr "b'" ++ bs.flatMap byteReprChars ++ [39]

/-- Python `str(value)`, as used by f-string interpolation. -/
def pyStrOf : PyVal → PyStr
  | .str s => s
  | .int n => intToDec n
  | .bytes b => bytesReprPy b
  | .none => pstr "None"
  | .other printed => printed

/-- Python truthiness of a value (`if value:` / `not value`). -/
def pyTruthy : PyVal → Bool
  | .int n => decide (n ≠ 0)
  | .str s => decide (s ≠ [])
  | .bytes b => decide (b ≠ [])
  | .none => false
  | .other _ => true

/-- Python `str.lower()` restricted to the ASCII case mapping.  This agrees
with CPython on every string whose lowercase form could equal `"discord"`
(no non-ASCII code point lowercases to any of `d i s c o r`). -/
def pyLower (s : PyStr) : PyStr :=
  s.map (fun c => if 0x41 <= c && c <= 0x5A then c + 0x20 else c)

/-- Connection states (`MainServer.NOT_IDENTIFIED` / `MainServer.IDENTIFIED`). -/
inductive CState where
  | notIdentified
  | identified
deriving DecidableEq, Repr

/-- A `ClientConnection` record (socket handles omitted; `address` holds the
display string `str(peername)`).  `user_agent` and `private_only` hold the
raw Python values taken from the HELLO arguments. -/
structure ClientConn where
  client_id : PyStr
  address : PyStr
  user_agent : PyVal
  private_only : PyVal
  state : CState
  name : PyStr
deriving DecidableEq, Repr

/-- `ClientConnection.__init__` field values (plus `on_client_new`, which
re-assigns the same NOT_IDENTIFIED state). -/
def ClientConn.new (client_id : PyStr) (address : PyStr) : ClientConn :=
  { client_id := client_id, address := address, user_agent := .str (pstr "Unknown"),
    private_only := .int 0, state := .notIdentified,
    name := pstr "Unknown:" ++ client_id }

/-- `self.clients`: the registry, keyed by client id, in insertion order. -/
abbrev Registry := List ClientConn

/-- `self.clients[cid]` / `cid in self.clients`. -/
def registryGet (reg : Registry) (cid : PyStr) : Option ClientConn :=
  reg.find? (fun c => c.client_id == cid)

/-- In-place mutation of the client object stored under `cid`. -/
def updateClient (reg : Registry) (cid : PyStr) (f : ClientConn → ClientConn) : Registry :=
  reg.map (fun c => if c.client_id == cid then f c else c)

/-- Observable effects of the router: a write attempt to a client (with the
oracle-decided outcome of `ClientConnection.send`), a call into the Discord
webhook sink (`_send_to_discord`), or `client.close()`. -/
inductive Event where
  | sent (recipient : PyStr) (message_id : PyStr) (args : Args) (ok : Bool)
  | discord (content : PyVal)
  | closed (cid : PyStr)
deriving DecidableEq, Repr

/-- `MainServer.broadcast(message_id, args, exclude)`: send to every client
that is not excluded, is IDENTIFIED, and is not private-only (send results
are ignored). -/
def MainServer.broadcast (reg : Registry) (ω : PyStr → Bool) (message_id : PyStr)
    (args : Args) (exclude : List PyStr) : List Event :=
  (reg.filter (fun c => decide (c.client_id ∉ exclude ∧ c.state = CState.identified ∧
      pyTruthy c.private_only = false))).map
    (fun c => .sent c.client_id message_id args (ω c.client_id))

/-- The `reply_args` construction shared by the `DELIVERY_FAILED` and
`CLIENT_NOT_FOUND` replies: `{clientID: recipient_id}`, then `SEQ` echoed
if present, then `IRY = 1`. -/
def replyArgs (recipient_id : PyVal) (args : Args) : Args :=
  dictSet
    (match dictGet args (pstr "SEQ") with
     | some s => dictSet [(pstr "clientID", recipient_id)] (pstr "SEQ") s
     | none => [(pstr "clientID", recipient_id)])
    (pstr "IRY") (.int 1)

/-- The broadcast arm of `_route_message`: stamp `args["FROM"]` with the
sender id, then fan out excluding the sender. -/
def route_broadcast (reg : Registry) (ω : PyStr → Bool) (client : ClientConn)
    (message_id : PyStr) (args : Args) : List Event :=
  MainServer.broadcast reg ω message_id
    (dictSet args (pstr "FROM") (.str client.client_id)) [client.client_id]

/-- `MainServer._route_message`.  An `.error` result models an uncaught
Python exception (`AttributeError` from calling `.lower()` on a value that
has no such method), which propagates out of the handler into the client
message loop. -/
def route_message (reg : Registry) (ω : PyStr → Bool) (client : ClientConn)
    (message_id : PyStr) (args : Args) : Except Unit (List Event) :=
  match dictGet args (pstr "TO") with
  | some recipient_id =>
    match (match recipient_id with
           | .str s => registryGet reg s
           | _ => Option.none) with
    | some recipient =>
      let args2 := dictSet args (pstr "FROM") (.str client.client_id)
      if ω recipient.client_id then
        .ok [.sent recipient.client_id message_id args2 true]
      else
        .ok [.sent recipient.client_id message_id args2 false,
             .sent client.client_id (pstr "DELIVERY_FAILED") (replyArgs recipient_id args2)
               (ω client.client_id)]
    | none =>
      .ok [.sent client.client_id (pstr "CLIENT_NOT_FOUND") (replyArgs recipient_id args)
             (ω client.client_id)]
  | none =>
    match dictGet args (pstr "player") with
    | some (.str s) =>
      if pyLower s = pstr "discord" then
        .ok [.discord ((dictGet args (pstr "comm")).getD (.str (pstr "")))]
      else .ok (route_broadcast reg ω client message_id args)
    | some (.bytes _) => .ok (route_broadcast reg ω client message_id args)
    | some _ => .error ()
    | none => .ok (route_broadcast reg ω client message_id args)

/-- `MainServer.process_HELLO` (the `isinstance(args, dict)` guard is
omitted: the parser only ever yields dictionaries). -/
def process_HELLO (reg : Registry) (ω : PyStr → Bool) (client : ClientConn) (args : Args) :
    Registry × List Event :=
  if client.state = CState.notIdentified then
    let ua := (dictGet args (pstr "userAgent")).getD (.str (pstr "Unknown"))
    let po := (dictGet args (pstr "privateOnly")).getD (.int 0)
    let name := pyStrOf ua ++ pstr ":" ++ client.client_id
    let reg2 := updateClient reg client.client_id (fun c =>
      { c with user_agent := ua, private_only := po, name := name,
               state := CState.identified })
    let join_args := [(pstr "clientID", PyVal.str client.client_id),
                      (pstr "name", PyVal.str name),
                      (pstr "userAgent", ua),
                      (pstr "host", PyVal.str client.address)]
    (reg2, MainServer.broadcast reg2 ω (pstr "JOIN") join_args [client.client_id])
  else
    (reg, [.closed client.client_id])

/-- The `for cid, c in self.clients.items()` loop of `process_LIST_CLIENTS`:
emits one `client<i>` / `clientUserAgent<i>` pair per IDENTIFIED client and
returns the final counter. -/
def buildClientList : Registry → Nat → Args × Nat
  | [], i => ([], i)
  | c :: rest, i =>
    if c.state = CState.identified then
      let p := buildClientList rest (i + 1)
      ((pstr "client" ++ natToDec i, PyVal.str c.client_id) ::
       (pstr "clientUserAgent" ++ natToDec i, c.user_agent) :: p.1, p.2)
    else buildClientList rest i

/-- `MainServer.process_LIST_CLIENTS` (the `isinstance` guard omitted as in
`process_HELLO`). -/
def process_LIST_CLIENTS (reg : Registry) (ω : PyStr → Bool) (client : ClientConn)
    (args : Args) : List Event :=
  let p := buildClientList reg 0
  let reply := dictSet
    (match dictGet args (pstr "SEQ") with
     | some s => dictSet (dictSet p.1 (pstr "count") (.int p.2)) (pstr "SEQ") s
     | none => dictSet p.1 (pstr "count") (.int p.2))
    (pstr "IRY") (.int 1)
  [.sent client.client_id (pstr "LIST_CLIENTS") reply (ω client.client_id)]

/-- `MainServer.on_client_data`: reflective dispatch.  The only
`process_<message_id>` attributes on the server are `process_HELLO` and
`process_LIST_CLIENTS`; every other message id falls through to
`_route_message`.  There is no state check before dispatch. -/
def on_client_data (reg : Registry) (ω : PyStr → Bool) (client : ClientConn)
    (message_id : PyStr) (args : Args) : Except Unit (Registry × List Event) :=
  if message_id = pstr "HELLO" then .ok (process_HELLO reg ω client args)
  else if message_id = pstr "LIST_CLIENTS" then
    .ok (reg, process_LIST_CLIENTS reg ω client args)
  else (route_message reg ω client message_id args).map (fun evs => (reg, evs))

/-- The registry after one incoming message (errors and events dropped; an
uncaught routing exception leaves the registry unchanged at that point). -/
def serverStep (ω : PyStr → Bool) (reg : Registry) (cid : PyStr) (message_id : PyStr)
    (args : Args) : Registry :=
  match registryGet reg cid with
  | some client =>
    match on_client_data reg ω client message_id args with
    | .ok p => p.1
    | .error _ => reg
  | none => reg

/-- The registry after a whole trace of incoming messages. -/
def runTrace (ω : PyStr → Bool) : Registry → List (PyStr × PyStr × Args) → Registry
  | reg, [] => reg
  | reg, (cid, mid, args) :: rest => runTrace ω (serverStep ω reg cid mid args) rest

/-- The inner `while True: result = parser.read_next()` drain loop of
`BaseServer._client_message_loop`: messages are delivered in order until
`read_next` returns `None` (no complete frame, or a parse error that
cleared the buffer).  A successful `read_next` consumes at least 4 bytes,
so `buffer length + 1` units of fuel always suffice. -/
def drainLoop : Nat → MessageParser → List (PyStr × Args) →
    List (PyStr × Args) × MessageParser
  | 0, p, acc => (acc, p)
  | fuel + 1, p, acc =>
    match p.read_next with
    | (Option.none, p2) => (acc, p2)
    | (Option.some msg, p2) => drainLoop fuel p2 (acc ++ [msg])

/-- One iteration of `_client_message_loop`: a chunk of data arrives, is
added to the parser, and all complete messages are drained.  No branch of
the loop closes the connection on a parse error. -/
def clientLoopCycle (p : MessageParser) (data : List Nat) :
    List (PyStr × Args) × MessageParser :=
  let p1 := p.add data
  drainLoop (p1.buffer.length + 1) p1 []

/-- `_client_message_loop` over a sequence of received chunks: the messages
delivered to `on_client_data`, in order. -/
def clientLoop : MessageParser → List (List Nat) → List (PyStr × Args)
  | _, [] => []
  | p, d :: ds =>
    let r := clientLoopCycle p d
    r.1 ++ clientLoop r.2 ds

/-! ## Supporting lemmas for the claim theorems -/

theorem serializeBody_ok_values : ∀ (a : Args) (body : List Nat),
    serializeBody a = .ok body → ∀ p ∈ a, ∃ t d, serialize_value p.2 = .ok (t, d)
  | [], _, _, p, hp => absurd hp (List.not_mem_nil p)
  | (k, v) :: rest, body, h, p, hp => by
    obtain ⟨kb, t, d, tailB, _, hsv, _, _, _, htl, _⟩ := serializeBody_cons k v rest body h
    rcases List.mem_cons.mp hp with h1 | h1
    · subst h1; exact ⟨t, d, hsv⟩
    · exact serializeBody_ok_values rest tailB htl p h1

/-! ## Claim theorems -/

/-- C9 counterexample: the claim says any value other than int/str/bytes —
including `None` — is rendered printable and emitted as STRING (type 1,
payload `b"None"`), but `_serialize_value` checks `value is None` first and
emits BINARY (type 0) with an empty payload. -/
theorem C9_counterexample :
    serialize_value PyVal.none = .ok (0, []) ∧
    (Except.ok (0, ([] : List Nat)) : Except Unit (Nat × List Nat)) ≠
      .ok (1, pstr "None") := ⟨rfl, by decide⟩

/-- C9 (amended): the serializer chooses the wire type per value as follows:
an integer is emitted as UINT (type 2, a 4-byte big-endian payload that
unpacks to the integer); a string as STRING (type 1, a UTF-8 payload that
decodes back to the string); bytes as BINARY (type 0) verbatim; `None` as
BINARY (type 0) with an empty payload (not as a printable STRING); any
other value is rendered printable and emitted as STRING (type 1). -/
theorem C9_serializer_type_choice :
    (∀ (n : Int) (t : Nat) (bs : List Nat), serialize_value (.int n) = .ok (t, bs) →
       t = 2 ∧ bs.length = 4 ∧ unpackU32 bs = .ok n.toNat) ∧
    (∀ (s : PyStr) (t : Nat) (bs : List Nat), serialize_value (.str s) = .ok (t, bs) →
       t = 1 ∧ utf8Decode bs = .ok s) ∧
    (∀ b : List Nat, serialize_value (.bytes b) = .ok (0, b)) ∧
    serialize_value PyVal.none = .ok (0, []) ∧
    (∀ (r : PyStr) (t : Nat) (bs : List Nat), serialize_value (.other r) = .ok (t, bs) →
       t = 1 ∧ utf8Decode bs = .ok r) := by
  refine ⟨?_, ?_, fun b => rfl, rfl, ?_⟩
  · intro n t bs h
    rw [show serialize_value (.int n) = (packU32 n).map ((2, ·)) from rfl] at h
    cases hp : packU32 n with
    | error e => rw [hp] at h; exact absurd h (by simp [Except.map])
    | ok b =>
      rw [hp] at h
      simp only [Except.map, Except.ok.injEq, Prod.mk.injEq] at h
      obtain ⟨ht, hb⟩ := h
      obtain ⟨h0, h1, hshape⟩ := packU32_ok_shape n b hp
      subst ht; subst hb; subst hshape
      refine ⟨rfl, rfl, unpackU32_bytes n.toNat (by omega)⟩
  · intro s t bs h
    rw [show serialize_value (.str s) = (pyEncodeUtf8 s).map ((1, ·)) from rfl] at h
    cases hp : pyEncodeUtf8 s with
    | error e => rw [hp] at h; exact absurd h (by simp [Except.map])
    | ok b =>
      rw [hp] at h
      simp only [Except.map, Except.ok.injEq, Prod.mk.injEq] at h
      obtain ⟨ht, hb⟩ := h
      subst ht; subst hb
      exact ⟨rfl, utf8Decode_pyEncodeUtf8 s _ hp⟩
  · intro r t bs h
    rw [show serialize_value (.other r) = (pyEncodeUtf8 r).map ((1, ·)) from rfl] at h
    cases hp : pyEncodeUtf8 r with
    | error e => rw [hp] at h; exact absurd h (by simp [Except.map])
    | ok b =>
      rw [hp] at h
      simp only [Except.map, Except.ok.injEq, Prod.mk.injEq] at h
      obtain ⟨ht, hb⟩ := h
      subst ht; subst hb
      exact ⟨rfl, utf8Decode_pyEncodeUtf8 r _ hp⟩

/-- C9 witness: the amended claim evaluated at concrete values. -/
theorem C9_witness :
    ((2 : Nat) = 2 ∧ ([0, 0, 0, 5] : List Nat).length = 4 ∧
      unpackU32 [0, 0, 0, 5] = .ok (Int.toNat 5)) ∧
    ((1 : Nat) = 1 ∧ utf8Decode [104, 105] = .ok (pstr "hi")) :=
  ⟨C9_serializer_type_choice.1 5 2 [0, 0, 0, 5] (by decide),
   C9_serializer_type_choice.2.1 (pstr "hi") 1 [104, 105] (by decide)⟩

/-- Peel a failing bind: either the first action failed or it succeeded
and the continuation failed. -/
theorem except_bind_eq_error {α β : Type} {x : Except Unit α} {f : α → Except Unit β}
    (h : (x >>= f) = .error ()) : x = .error () ∨ ∃ a, x = .ok a ∧ f a = .error () := by
  cases x with
  | error e => exact Or.inl rfl
  | ok a => exact Or.inr ⟨a, rfl, h⟩

/-- Any successful body encoding and in-range total length give a
successful `serialize`. -/
theorem serialize_ok_of (m : PyStr) (a : Args) (mb body : List Nat)
    (hm : pyEncodeUtf8 m = .ok mb) (hm255 : mb.length < 256)
    (hb : serializeBody a = .ok body)
    (htot : 6 + mb.length + body.length < 4294967296) :
    ∃ bs, serialize m a = .ok bs := by
  cases hs : serialize m a with
  | ok bs => exact ⟨bs, rfl⟩
  | error e =>
    exfalso
    rcases except_bind_eq_error hs with h | ⟨mb2, h1, h⟩
    · rw [hm] at h; simp at h
    · rw [hm] at h1
      obtain rfl := Except.ok.inj h1
      rcases except_bind_eq_error h with h | ⟨mlb, h2, h⟩
      · unfold packB at h; rw [if_pos hm255] at h; simp at h
      · obtain ⟨_, rfl⟩ := packB_ok _ _ h2
        rcases except_bind_eq_error h with h | ⟨body2, h3, h⟩
        · rw [hb] at h; simp at h
        · rw [hb] at h3
          obtain rfl := Except.ok.inj h3
          rcases except_bind_eq_error h with h | ⟨lenb, h4, h⟩
          · unfold packU32 at h
            split at h
            · simp at h
            · rename_i hc
              apply hc
              refine ⟨Int.natCast_nonneg _, ?_⟩
              have hlen : ([0, 0, 0, 0] ++ [0] ++ [mb.length] ++ mb ++ body).length =
                  6 + mb.length + body.length := by
                simp only [List.length_append, List.length_cons, List.length_nil]
                try omega
              rw [hlen]
              exact_mod_cast htot
          · simp at h

/-- C10: serialization is partial on integers.  (1) If any argument value
is an integer outside `[0, 2^32)`, `serialize` raises (`struct.error`) and
produces no frame — the value is neither wrapped modulo 2^32 nor encoded in
a wider type.  (2) `_serialize_value` succeeds on every integer inside the
range, emitting UINT.  (3) A whole frame with an in-range integer argument
serializes successfully whenever the id and key fit their length fields. -/
theorem C10_int_serialization_domain :
    (∀ (m : PyStr) (a : Args) (k : PyStr) (n : Int),
        (k, PyVal.int n) ∈ a → (n < 0 ∨ 4294967296 ≤ n) →
        serialize m a = .error ()) ∧
    (∀ n : Int, 0 ≤ n → n < 4294967296 →
        ∃ bs, serialize_value (.int n) = .ok (2, bs)) ∧
    (∀ (m k : PyStr) (n : Int) (mb kb : List Nat),
        pyEncodeUtf8 m = .ok mb → mb.length ≤ 255 →
        pyEncodeUtf8 k = .ok kb → kb.length ≤ 255 →
        0 ≤ n → n < 4294967296 →
        ∃ bs, serialize m [(k, .int n)] = .ok bs) := by
  refine ⟨?_, ?_, ?_⟩
  · intro m a k n hmem hout
    cases hs : serialize m a with
    | error e => rfl
    | ok bs =>
      exfalso
      obtain ⟨mb, _, h⟩ := except_bind_eq_ok hs
      obtain ⟨mlb, _, h⟩ := except_bind_eq_ok h
      obtain ⟨body, hbody, _⟩ := except_bind_eq_ok h
      obtain ⟨t, d, hsv⟩ := serializeBody_ok_values a body hbody (k, PyVal.int n) hmem
      rw [show serialize_value (.int n) = (packU32 n).map ((2, ·)) from rfl] at hsv
      cases hp : packU32 n with
      | error e => rw [hp] at hsv; exact absurd hsv (by simp [Except.map])
      | ok b =>
        obtain ⟨h0, h1, _⟩ := packU32_ok_shape n b hp
        omega
  · intro n h0 h1
    refine ⟨[n.toNat / 16777216 % 256, n.toNat / 65536 % 256, n.toNat / 256 % 256,
      n.toNat % 256], ?_⟩
    rw [show serialize_value (.int n) = (packU32 n).map ((2, ·)) from rfl]
    unfold packU32
    rw [if_pos ⟨h0, h1⟩]
    rfl
  · intro m k n mb kb hm hm255 hk hk255 h0 h1
    have hsv : serialize_value (.int n) = .ok (2,
        [n.toNat / 16777216 % 256, n.toNat / 65536 % 256, n.toNat / 256 % 256,
         n.toNat % 256]) := by
      rw [show serialize_value (.int n) = (packU32 n).map ((2, ·)) from rfl]
      unfold packU32
      rw [if_pos ⟨h0, h1⟩]
      rfl
    obtain ⟨body, hsb⟩ : ∃ body, serializeBody [(k, PyVal.int n)] = .ok body := by
      cases hx : serializeBody [(k, PyVal.int n)] with
      | ok b => exact ⟨b, rfl⟩
      | error e =>
        exfalso
        rcases except_bind_eq_error hx with h | ⟨kb2, hkb2, h⟩
        · rw [hk] at h; simp at h
        · rw [hk] at hkb2
          obtain rfl := Except.ok.inj hkb2
          rcases except_bind_eq_error h with h | ⟨td, htd, h⟩
          · rw [hsv] at h; simp at h
          · rw [hsv] at htd
            obtain rfl := Except.ok.inj htd
            rcases except_bind_eq_error h with h | ⟨klb, hklb, h⟩
            · unfold packB at h; rw [if_pos (by omega)] at h; simp at h
            · rcases except_bind_eq_error h with h | ⟨tbb, htb, h⟩
              · rw [show packB 2 = .ok [2] from rfl] at h; simp at h
              · rcases except_bind_eq_error h with h | ⟨lb, hlb, h⟩
                · rw [show ([n.toNat / 16777216 % 256, n.toNat / 65536 % 256,
                    n.toNat / 256 % 256, n.toNat % 256] : List Nat).length = 4 from rfl] at h
                  rw [show to_int24 4 = .ok [0, 0, 4] from by decide] at h
                  simp at h
                · rcases except_bind_eq_error h with h | ⟨tl, htl, h⟩
                  · rw [show serializeBody ([] : Args) = .ok [] from rfl] at h; simp at h
                  · simp at h
    obtain ⟨kb2, t, d, tailB, hkb2, hsv2, _, _, _, htl2, hshape⟩ :=
      serializeBody_cons k (PyVal.int n) [] body hsb
    rw [hk] at hkb2
    obtain rfl := Except.ok.inj hkb2
    rw [hsv] at hsv2
    obtain htd := Except.ok.inj hsv2
    simp only [Prod.mk.injEq] at htd
    exact serialize_ok_of m [(k, PyVal.int n)] mb body hm (by omega) hsb
      (by obtain ⟨rfl, rfl⟩ := htd
          obtain rfl := Except.ok.inj htl2
          rw [hshape]
          simp only [List.length_append, List.length_cons, List.length_nil]
          omega)

/-- C10 witness: concrete instances of all three parts. -/
theorem C10_witness :
    serialize (pstr "X") [(pstr "k", .int (-1))] = .error () ∧
    (∃ bs, serialize_value (.int 5) = .ok (2, bs)) ∧
    (∃ bs, serialize (pstr "A") [(pstr "k", .int 5)] = .ok bs) :=
  ⟨C10_int_serialization_domain.1 (pstr "X") [(pstr "k", .int (-1))] (pstr "k") (-1)
      (by decide) (by omega),
   C10_int_serialization_domain.2.1 5 (by omega) (by omega),
   C10_int_serialization_domain.2.2 (pstr "A") (pstr "k") 5 [65] [107]
      (by decide) (by decide) (by decide) (by decide) (by omega) (by omega)⟩

/-- C1: round-trip of the SSM codec.  For every message id and argument
mapping obeying the length bounds of §3 (the UTF-8 encodings of the id and
of each key fit the one-byte length fields, which is forced by `serialize`
succeeding; each value payload fits the 24-bit length field) and the
value-type rules of §4.1 (each value an unsigned 32-bit integer, a UTF-8
string, or raw bytes), deserializing the bytes produced by
`serialize(m, a)` yields exactly `(m, a)`.  Distinct keys are assumed, as
for any Python dict. -/
theorem C1_parse_serialize_roundtrip (m : PyStr) (a : Args) (bs : List Nat)
    (hkeys : (a.map Prod.fst).Nodup)
    (htypes : ∀ p ∈ a, wireVal p.2)
    (hvlen : ∀ p ∈ a, ∀ t d, serialize_value p.2 = .ok (t, d) → d.length < 16777216)
    (hser : serialize m a = .ok bs) :
    deserialize bs = .ok (m, a) :=
  deserialize_serialize m a bs hkeys htypes hvlen hser

/-- C1 witness: the round trip evaluated on a concrete frame with UINT,
STRING and BINARY arguments. -/
theorem C1_witness :
    deserialize [0, 0, 0, 46, 0, 1, 65, 1, 107, 2, 0, 0, 4, 0, 0, 0, 5, 1, 115, 1, 0, 0, 2, 104, 105,
        1, 98, 0, 0, 0, 3, 255, 0, 7, 3, 83, 69, 81, 2, 0, 0, 4, 0, 0, 0, 9] =
      .ok (pstr "A", [(pstr "k", .int 5), (pstr "s", .str (pstr "hi")),
        (pstr "b", .bytes [255, 0, 7]), (pstr "SEQ", .int 9)]) :=
  C1_parse_serialize_roundtrip (pstr "A")
    [(pstr "k", .int 5), (pstr "s", .str (pstr "hi")),
     (pstr "b", .bytes [255, 0, 7]), (pstr "SEQ", .int 9)]
    [0, 0, 0, 46, 0, 1, 65, 1, 107, 2, 0, 0, 4, 0, 0, 0, 5, 1, 115, 1, 0, 0, 2, 104, 105,
        1, 98, 0, 0, 0, 3, 255, 0, 7, 3, 83, 69, 81, 2, 0, 0, 4, 0, 0, 0, 9]
    (by decide)
    (by intro p hp
        simp only [List.mem_cons, List.not_mem_nil, or_false] at hp
        rcases hp with rfl | rfl | rfl | rfl <;> trivial)
    (by intro p hp t d hsv
        simp only [List.mem_cons, List.not_mem_nil, or_false] at hp
        rcases hp with rfl | rfl | rfl | rfl
        · rw [show ((pstr "k", PyVal.int 5) : PyStr × PyVal).2 = PyVal.int 5 from rfl,
              show serialize_value (PyVal.int 5) = Except.ok (2, [0, 0, 0, 5]) from by decide]
            at hsv
          simp only [Except.ok.injEq, Prod.mk.injEq] at hsv
          obtain ⟨h1, h2⟩ := hsv
          subst h2
          decide
        · rw [show ((pstr "s", PyVal.str (pstr "hi")) : PyStr × PyVal).2 =
                PyVal.str (pstr "hi") from rfl,
              show serialize_value (PyVal.str (pstr "hi")) = Except.ok (1, [104, 105]) from by
                decide] at hsv
          simp only [Except.ok.injEq, Prod.mk.injEq] at hsv
          obtain ⟨h1, h2⟩ := hsv
          subst h2
          decide
        · rw [show ((pstr "b", PyVal.bytes [255, 0, 7]) : PyStr × PyVal).2 =
                PyVal.bytes [255, 0, 7] from rfl,
              show serialize_value (PyVal.bytes [255, 0, 7]) =
                Except.ok (0, [255, 0, 7]) from by decide] at hsv
          simp only [Except.ok.injEq, Prod.mk.injEq] at hsv
          obtain ⟨h1, h2⟩ := hsv
          subst h2
          decide
        · rw [show ((pstr "SEQ", PyVal.int 9) : PyStr × PyVal).2 = PyVal.int 9 from rfl,
              show serialize_value (PyVal.int 9) = Except.ok (2, [0, 0, 0, 9]) from by decide]
            at hsv
          simp only [Except.ok.injEq, Prod.mk.injEq] at hsv
          obtain ⟨h1, h2⟩ := hsv
          subst h2
          decide)
    (by decide)

theorem drainLoop_succ (fuel : Nat) (p : MessageParser) (acc : List (PyStr × Args)) :
    drainLoop (fuel + 1) p acc =
      match p.read_next with
      | (Option.none, p2) => (acc, p2)
      | (Option.some msg, p2) => drainLoop fuel p2 (acc ++ [msg]) := rfl

theorem clientLoop_cons (p : MessageParser) (d : List Nat) (ds : List (List Nat)) :
    clientLoop p (d :: ds) =
      (clientLoopCycle p d).1 ++ clientLoop (clientLoopCycle p d).2 ds := rfl

theorem pySlice_take_front (b d : List Nat) (k : Nat) (h : k ≤ b.length) :
    pySlice (b ++ d) 0 k = pySlice b 0 k := by
  unfold pySlice
  rw [List.drop_zero, List.drop_zero, Nat.sub_zero]
  rw [List.take_append_of_le_length h]

/-- A parse error on a complete buffered frame makes `read_next` clear the
buffer and report nothing; the parser object survives. -/
theorem read_next_parse_error (p : MessageParser) (n : Nat)
    (h4 : ¬ p.buffer.length < 4)
    (hlen : unpackU32 (pySlice p.buffer 0 4) = .ok n)
    (hcomplete : ¬ p.buffer.length < n)
    (herr : unserialize_ssm (pySlice p.buffer 0 n) = .error ()) :
    p.read_next = (Option.none, ⟨[]⟩) := by
  unfold MessageParser.read_next
  rw [if_neg h4]
  split
  · rfl
  · rename_i msg_len heq
    rw [hlen] at heq
    obtain rfl := Except.ok.inj heq
    rw [if_neg hcomplete]
    split
    · rename_i m heq2
      rw [herr] at heq2
      cases heq2
    · rfl

/-- C2 counterexample: a complete frame whose single value is UINT with
`value_len = 3` is a parse error; the buffer is cleared and `read_next`
reports nothing — but the connection is not closed: a well-formed frame
received on a later read cycle of the same connection is still parsed and
delivered, refuting "no further frames from that connection are
processed". -/
theorem C2_counterexample :
    MessageParser.read_next ⟨[0, 0, 0, 16, 0, 1, 65, 1, 107, 2, 0, 0, 3, 9, 9, 9]⟩ =
      (Option.none, ⟨[]⟩) ∧
    clientLoop ⟨[]⟩ [[0, 0, 0, 16, 0, 1, 65, 1, 107, 2, 0, 0, 3, 9, 9, 9],
      [0, 0, 0, 7, 0, 1, 66]] = [(pstr "B", [])] ∧
    [(pstr "B", ([] : Args))] ≠ [] := ⟨by decide, by decide, by decide⟩

/-- C2 (amended): a parse error inside a complete frame causes the entire
receive buffer to be discarded (any frames already queued behind it are
lost) and nothing to be delivered, but the connection is NOT closed: the
read loop keeps running on a fresh empty buffer, and chunks received later
are processed normally. -/
theorem C2_parse_error_discards_buffer_without_closing (b : List Nat) (n : Nat)
    (h4 : ¬ b.length < 4)
    (hlen : unpackU32 (pySlice b 0 4) = .ok n)
    (hcomplete : ¬ b.length < n)
    (herr : unserialize_ssm (pySlice b 0 n) = .error ()) :
    MessageParser.read_next ⟨b⟩ = (Option.none, ⟨[]⟩) ∧
    ∀ (d : List Nat) (ds : List (List Nat)),
      clientLoop ⟨b⟩ (d :: ds) = clientLoop ⟨[]⟩ ds := by
  constructor
  · exact read_next_parse_error ⟨b⟩ n h4 hlen hcomplete herr
  · intro d ds
    have hlen2 : unpackU32 (pySlice (b ++ d) 0 4) = .ok n := by
      rw [pySlice_take_front b d 4 (by omega)]
      exact hlen
    have herr2 : unserialize_ssm (pySlice (b ++ d) 0 n) = .error () := by
      rw [pySlice_take_front b d n (by omega)]
      exact herr
    have hread : MessageParser.read_next ⟨b ++ d⟩ = (Option.none, ⟨[]⟩) :=
      read_next_parse_error ⟨b ++ d⟩ n
        (by simp only [List.length_append]; omega) hlen2
        (by simp only [List.length_append]; omega) herr2
    have hcycle : clientLoopCycle ⟨b⟩ d = ([], ⟨[]⟩) := by
      unfold clientLoopCycle MessageParser.add
      rw [drainLoop_succ, hread]
    rw [clientLoop_cons, hcycle]
    rfl

/-- C2 witness: the amended claim at the concrete bad frame, followed by a
later good frame that is still processed. -/
theorem C2_witness :
    MessageParser.read_next ⟨[0, 0, 0, 16, 0, 1, 65, 1, 107, 2, 0, 0, 3, 9, 9, 9]⟩ =
      (Option.none, ⟨[]⟩) ∧
    clientLoop ⟨[0, 0, 0, 16, 0, 1, 65, 1, 107, 2, 0, 0, 3, 9, 9, 9]⟩
        ([] :: [[0, 0, 0, 7, 0, 1, 66]]) =
      clientLoop ⟨[]⟩ [[0, 0, 0, 7, 0, 1, 66]] :=
  ⟨(C2_parse_error_discards_buffer_without_closing
      [0, 0, 0, 16, 0, 1, 65, 1, 107, 2, 0, 0, 3, 9, 9, 9] 16
      (by decide) (by decide) (by decide) (by decide)).1,
   (C2_parse_error_discards_buffer_without_closing
      [0, 0, 0, 16, 0, 1, 65, 1, 107, 2, 0, 0, 3, 9, 9, 9] 16
      (by decide) (by decide) (by decide) (by decide)).2 [] [[0, 0, 0, 7, 0, 1, 66]]⟩

theorem route_message_no_closed (reg : Registry) (ω : PyStr → Bool) (client : ClientConn)
    (message_id : PyStr) (args : Args) (evs : List Event)
    (h : route_message reg ω client message_id args = .ok evs) :
    ∀ x, Event.closed x ∉ evs := by
  intro x hx
  unfold route_message at h
  repeat any_goals split at h
  all_goals first
    | exact Except.noConfusion h
    | (obtain rfl := Except.ok.inj h
       simp [route_broadcast, MainServer.broadcast, List.mem_map, List.mem_filter] at hx)

/-- C3 counterexample: the dispatcher `on_client_data` performs no state
check, so a NOT_IDENTIFIED client's `LIST_CLIENTS` request is answered
(with `IRY = 1` and the usual listing) and a NOT_IDENTIFIED client's
broadcast is fanned out — the offending connection is not closed in either
case, refuting "such a message is never routed to other clients and never
answered (… results only in that connection being closed)". -/
theorem C3_counterexample :
    (ClientConn.new (pstr "0") (pstr "a0")).state = CState.notIdentified ∧
    on_client_data
      [ClientConn.new (pstr "0") (pstr "a0"),
       ClientConn.mk (pstr "1") (pstr "a1") (.str (pstr "botB")) (.int 0)
         .identified (pstr "botB:1")]
      (fun _ => true) (ClientConn.new (pstr "0") (pstr "a0")) (pstr "LIST_CLIENTS") [] =
    .ok ([ClientConn.new (pstr "0") (pstr "a0"),
          ClientConn.mk (pstr "1") (pstr "a1") (.str (pstr "botB")) (.int 0)
            .identified (pstr "botB:1")],
      [.sent (pstr "0") (pstr "LIST_CLIENTS")
        [(pstr "client0", .str (pstr "1")),
         (pstr "clientUserAgent0", .str (pstr "botB")),
         (pstr "count", .int 1), (pstr "IRY", .int 1)] true]) ∧
    on_client_data
      [ClientConn.new (pstr "0") (pstr "a0"),
       ClientConn.mk (pstr "1") (pstr "a1") (.str (pstr "botB")) (.int 0)
         .identified (pstr "botB:1")]
      (fun _ => true) (ClientConn.new (pstr "0") (pstr "a0")) (pstr "CHAT")
      [(pstr "x", .str (pstr "y"))] =
    .ok ([ClientConn.new (pstr "0") (pstr "a0"),
          ClientConn.mk (pstr "1") (pstr "a1") (.str (pstr "botB")) (.int 0)
            .identified (pstr "botB:1")],
      [.sent (pstr "1") (pstr "CHAT")
        [(pstr "x", .str (pstr "y")), (pstr "FROM", .str (pstr "0"))] true]) ∧
    Event.closed (pstr "0") ∉
      [Event.sent (pstr "0") (pstr "LIST_CLIENTS")
        [(pstr "client0", .str (pstr "1")),
         (pstr "clientUserAgent0", .str (pstr "botB")),
         (pstr "count", .int 1), (pstr "IRY", .int 1)] true] :=
  ⟨by decide, by decide, by decide, by decide⟩

/-- C3 (amended): `on_client_data` dispatches on the message id only and
never consults the sender's state, so a non-HELLO message from a
NOT_IDENTIFIED connection is handled exactly as from an identified one —
`LIST_CLIENTS` is answered and everything else is routed by the normal
rules — and the connection is not closed. -/
theorem C3_not_identified_messages_processed (reg : Registry) (ω : PyStr → Bool)
    (client : ClientConn) (message_id : PyStr) (args : Args)
    (_hstate : client.state = CState.notIdentified)
    (hnh : message_id ≠ pstr "HELLO") :
    on_client_data reg ω client message_id args =
      (if message_id = pstr "LIST_CLIENTS" then
        .ok (reg, process_LIST_CLIENTS reg ω client args)
       else (route_message reg ω client message_id args).map (fun evs => (reg, evs))) ∧
    (∀ reg2 evs, on_client_data reg ω client message_id args = .ok (reg2, evs) →
      reg2 = reg ∧ ∀ x, Event.closed x ∉ evs) := by
  have hdisp : on_client_data reg ω client message_id args =
      (if message_id = pstr "LIST_CLIENTS" then
        .ok (reg, process_LIST_CLIENTS reg ω client args)
       else (route_message reg ω client message_id args).map (fun evs => (reg, evs))) := by
    unfold on_client_data
    rw [if_neg hnh]
  refine ⟨hdisp, ?_⟩
  intro reg2 evs h
  rw [hdisp] at h
  by_cases hl : message_id = pstr "LIST_CLIENTS"
  · rw [if_pos hl] at h
    have h2 := Except.ok.inj h
    have hreg : reg = reg2 := congrArg Prod.fst h2
    have hevs : process_LIST_CLIENTS reg ω client args = evs := congrArg Prod.snd h2
    refine ⟨hreg.symm, ?_⟩
    intro x hx
    rw [← hevs] at hx
    simp [process_LIST_CLIENTS] at hx
  · rw [if_neg hl] at h
    cases hr : route_message reg ω client message_id args with
    | error e => rw [hr] at h; exact absurd h (by simp [Except.map])
    | ok evs2 =>
      rw [hr] at h
      simp only [Except.map, Except.ok.injEq, Prod.mk.injEq] at h
      obtain ⟨h1, h2⟩ := h
      subst h1
      subst h2
      exact ⟨rfl, route_message_no_closed reg ω client message_id args _ hr⟩

/-- C3 witness: the amended claim applied to a NOT_IDENTIFIED client
sending `LIST_CLIENTS`. -/
theorem C3_witness :
    (on_client_data [ClientConn.new (pstr "0") (pstr "a0")] (fun _ => true)
        (ClientConn.new (pstr "0") (pstr "a0")) (pstr "LIST_CLIENTS") [] =
      (if (pstr "LIST_CLIENTS") = pstr "LIST_CLIENTS" then
        .ok ([ClientConn.new (pstr "0") (pstr "a0")],
          process_LIST_CLIENTS [ClientConn.new (pstr "0") (pstr "a0")] (fun _ => true)
            (ClientConn.new (pstr "0") (pstr "a0")) [])
       else (route_message [ClientConn.new (pstr "0") (pstr "a0")] (fun _ => true)
          (ClientConn.new (pstr "0") (pstr "a0")) (pstr "LIST_CLIENTS") []).map
          (fun evs => ([ClientConn.new (pstr "0") (pstr "a0")], evs)))) ∧
    (∀ reg2 evs, on_client_data [ClientConn.new (pstr "0") (pstr "a0")] (fun _ => true)
        (ClientConn.new (pstr "0") (pstr "a0")) (pstr "LIST_CLIENTS") [] = .ok (reg2, evs) →
      reg2 = [ClientConn.new (pstr "0") (pstr "a0")] ∧ ∀ x, Event.closed x ∉ evs) :=
  C3_not_identified_messages_processed [ClientConn.new (pstr "0") (pstr "a0")] (fun _ => true)
    (ClientConn.new (pstr "0") (pstr "a0")) (pstr "LIST_CLIENTS") [] (by decide) (by decide)

theorem registryGet_client_id (reg : Registry) (s : PyStr) (c : ClientConn)
    (h : registryGet reg s = some c) : c.client_id = s := by
  unfold registryGet at h
  have hfind := List.find?_some h
  simpa using hfind

theorem replyArgs_IRY (t : PyVal) (a : Args) :
    dictGet (replyArgs t a) (pstr "IRY") = some (.int 1) := by
  unfold replyArgs
  exact dictGet_set_self _ _ _

theorem replyArgs_clientID (t : PyVal) (a : Args) :
    dictGet (replyArgs t a) (pstr "clientID") = some t := by
  unfold replyArgs
  cases h : dictGet a (pstr "SEQ") with
  | none =>
    rw [dictGet_set_ne _ _ _ _ (by decide)]
    rfl
  | some s =>
    rw [dictGet_set_ne _ _ _ _ (by decide)]
    rw [dictGet_set_ne _ _ _ _ (by decide)]
    rfl

theorem replyArgs_SEQ (t : PyVal) (a : Args) (q : PyVal)
    (h : dictGet a (pstr "SEQ") = some q) :
    dictGet (replyArgs t a) (pstr "SEQ") = some q := by
  unfold replyArgs
  rw [h]
  rw [dictGet_set_ne _ _ _ _ (by decide)]
  exact dictGet_set_self _ _ _

/-- C4: for a routed frame carrying a TO key from an identified sender,
exactly one of three outcomes occurs — delivery to the recipient with
`args.FROM` overwritten to the sender id, a `CLIENT_NOT_FOUND` reply when
the TO value is not a registry key, or a `DELIVERY_FAILED` reply when the
write fails — each reply carrying `clientID`, the echoed `SEQ` when
present, and `IRY = 1`; no second delivery attempt is ever made.  (The
hypothesis that the id is neither `HELLO` nor `LIST_CLIENTS` reflects that
those reserved ids go to their handlers, not the router.) -/
theorem C4_unicast_trichotomy (reg : Registry) (ω : PyStr → Bool) (client : ClientConn)
    (message_id : PyStr) (args : Args) (tval : PyVal)
    (hTO : dictGet args (pstr "TO") = some tval)
    (_hS : client.state = CState.identified)
    (hnh : message_id ≠ pstr "HELLO")
    (hnl : message_id ≠ pstr "LIST_CLIENTS") :
    (∃ evs, on_client_data reg ω client message_id args = .ok (reg, evs) ∧
      ((∃ s recipient, tval = .str s ∧ registryGet reg s = some recipient ∧ ω s = true ∧
          evs = [.sent s message_id (dictSet args (pstr "FROM") (.str client.client_id))
            true]) ∨
       (∃ s recipient, tval = .str s ∧ registryGet reg s = some recipient ∧ ω s = false ∧
          evs = [.sent s message_id (dictSet args (pstr "FROM") (.str client.client_id))
                   false,
                 .sent client.client_id (pstr "DELIVERY_FAILED")
                   (replyArgs tval (dictSet args (pstr "FROM") (.str client.client_id)))
                   (ω client.client_id)]) ∨
       ((∀ s, tval = .str s → registryGet reg s = Option.none) ∧
          evs = [.sent client.client_id (pstr "CLIENT_NOT_FOUND") (replyArgs tval args)
                   (ω client.client_id)]))) ∧
    dictGet (dictSet args (pstr "FROM") (.str client.client_id)) (pstr "FROM") =
      some (.str client.client_id) ∧
    (∀ q, dictGet args (pstr "SEQ") = some q →
      dictGet (dictSet args (pstr "FROM") (.str client.client_id)) (pstr "SEQ") = some q) ∧
    (∀ t a, dictGet (replyArgs t a) (pstr "IRY") = some (.int 1)) ∧
    (∀ t a, dictGet (replyArgs t a) (pstr "clientID") = some t) ∧
    (∀ t a q, dictGet a (pstr "SEQ") = some q →
      dictGet (replyArgs t a) (pstr "SEQ") = some q) := by
  refine ⟨?_, dictGet_set_self _ _ _,
    fun q hq => by rw [dictGet_set_ne _ _ _ _ (by decide)]; exact hq,
    replyArgs_IRY, replyArgs_clientID, replyArgs_SEQ⟩
  have hdisp : on_client_data reg ω client message_id args =
      (route_message reg ω client message_id args).map (fun evs => (reg, evs)) := by
    unfold on_client_data
    rw [if_neg hnh, if_neg hnl]
  cases tval with
  | str s =>
    cases hreg : registryGet reg s with
    | some r =>
      have hid := registryGet_client_id reg s r hreg
      cases hω : ω r.client_id with
      | true =>
        have hωs : ω s = true := by rw [← hid]; exact hω
        have hval : route_message reg ω client message_id args =
            .ok [.sent s message_id (dictSet args (pstr "FROM") (.str client.client_id))
              true] := by
          simp only [route_message, hTO, hreg, hid, hωs]
          rw [if_pos trivial]
        refine ⟨_, by rw [hdisp, hval]; rfl,
          Or.inl ⟨s, r, rfl, hreg, hωs, rfl⟩⟩
      | false =>
        have hωs : ω s = false := by rw [← hid]; exact hω
        have hval : route_message reg ω client message_id args =
            .ok [.sent s message_id (dictSet args (pstr "FROM") (.str client.client_id))
                   false,
                 .sent client.client_id (pstr "DELIVERY_FAILED")
                   (replyArgs (.str s) (dictSet args (pstr "FROM") (.str client.client_id)))
                   (ω client.client_id)] := by
          simp only [route_message, hTO, hreg, hid, hωs]
          rw [if_neg (by simp)]
        refine ⟨_, by rw [hdisp, hval]; rfl,
          Or.inr (Or.inl ⟨s, r, rfl, hreg, hωs, rfl⟩)⟩
    | none =>
      have hval : route_message reg ω client message_id args =
          .ok [.sent client.client_id (pstr "CLIENT_NOT_FOUND") (replyArgs (.str s) args)
                 (ω client.client_id)] := by
        simp only [route_message, hTO, hreg]
      refine ⟨_, by rw [hdisp, hval]; rfl,
        Or.inr (Or.inr ⟨(fun s2 hs2 => by cases hs2; exact hreg), rfl⟩)⟩
  | int n =>
    have hval : route_message reg ω client message_id args =
        .ok [.sent client.client_id (pstr "CLIENT_NOT_FOUND") (replyArgs (.int n) args)
               (ω client.client_id)] := by
      simp only [route_message, hTO]
    exact ⟨_, by rw [hdisp, hval]; rfl,
      Or.inr (Or.inr ⟨(fun s2 hs2 => by cases hs2), rfl⟩)⟩
  | bytes b =>
    have hval : route_message reg ω client message_id args =
        .ok [.sent client.client_id (pstr "CLIENT_NOT_FOUND") (replyArgs (.bytes b) args)
               (ω client.client_id)] := by
      simp only [route_message, hTO]
    exact ⟨_, by rw [hdisp, hval]; rfl,
      Or.inr (Or.inr ⟨(fun s2 hs2 => by cases hs2), rfl⟩)⟩
  | none =>
    have hval : route_message reg ω client message_id args =
        .ok [.sent client.client_id (pstr "CLIENT_NOT_FOUND") (replyArgs PyVal.none args)
               (ω client.client_id)] := by
      simp only [route_message, hTO]
    exact ⟨_, by rw [hdisp, hval]; rfl,
      Or.inr (Or.inr ⟨(fun s2 hs2 => by cases hs2), rfl⟩)⟩
  | other rp =>
    have hval : route_message reg ω client message_id args =
        .ok [.sent client.client_id (pstr "CLIENT_NOT_FOUND") (replyArgs (.other rp) args)
               (ω client.client_id)] := by
      simp only [route_message, hTO]
    exact ⟨_, by rw [hdisp, hval]; rfl,
      Or.inr (Or.inr ⟨(fun s2 hs2 => by cases hs2), rfl⟩)⟩

/-- C4 witness: the trichotomy applied to a concrete one-client registry
with a successful self-addressed unicast. -/
theorem C4_witness :
    (∃ evs, on_client_data [ClientConn.mk (pstr "0") (pstr "a") (.str (pstr "u")) (.int 0) .identified (pstr "u:0")] (fun _ => true) (ClientConn.mk (pstr "0") (pstr "a") (.str (pstr "u")) (.int 0) .identified (pstr "u:0")) (pstr "PING") [(pstr "TO", PyVal.str (pstr "0"))] =
        .ok ([ClientConn.mk (pstr "0") (pstr "a") (.str (pstr "u")) (.int 0) .identified (pstr "u:0")], evs) ∧
      ((∃ s recipient, PyVal.str (pstr "0") = .str s ∧
          registryGet [ClientConn.mk (pstr "0") (pstr "a") (.str (pstr "u")) (.int 0) .identified (pstr "u:0")] s = some recipient ∧ (fun _ => true) s = true ∧
          evs = [.sent s (pstr "PING")
            (dictSet [(pstr "TO", PyVal.str (pstr "0"))] (pstr "FROM") (.str (ClientConn.mk (pstr "0") (pstr "a") (.str (pstr "u")) (.int 0) .identified (pstr "u:0")).client_id)) true]) ∨
       (∃ s recipient, PyVal.str (pstr "0") = .str s ∧
          registryGet [ClientConn.mk (pstr "0") (pstr "a") (.str (pstr "u")) (.int 0) .identified (pstr "u:0")] s = some recipient ∧ (fun _ => true) s = false ∧
          evs = [.sent s (pstr "PING")
                   (dictSet [(pstr "TO", PyVal.str (pstr "0"))] (pstr "FROM") (.str (ClientConn.mk (pstr "0") (pstr "a") (.str (pstr "u")) (.int 0) .identified (pstr "u:0")).client_id)) false,
                 .sent (ClientConn.mk (pstr "0") (pstr "a") (.str (pstr "u")) (.int 0) .identified (pstr "u:0")).client_id (pstr "DELIVERY_FAILED")
                   (replyArgs (PyVal.str (pstr "0"))
                     (dictSet [(pstr "TO", PyVal.str (pstr "0"))] (pstr "FROM") (.str (ClientConn.mk (pstr "0") (pstr "a") (.str (pstr "u")) (.int 0) .identified (pstr "u:0")).client_id)))
                   ((fun _ => true) (ClientConn.mk (pstr "0") (pstr "a") (.str (pstr "u")) (.int 0) .identified (pstr "u:0")).client_id)]) ∨
       ((∀ s, PyVal.str (pstr "0") = .str s → registryGet [ClientConn.mk (pstr "0") (pstr "a") (.str (pstr "u")) (.int 0) .identified (pstr "u:0")] s = Option.none) ∧
          evs = [.sent (ClientConn.mk (pstr "0") (pstr "a") (.str (pstr "u")) (.int 0) .identified (pstr "u:0")).client_id (pstr "CLIENT_NOT_FOUND")
                   (replyArgs (PyVal.str (pstr "0")) [(pstr "TO", PyVal.str (pstr "0"))])
                   ((fun _ => true) (ClientConn.mk (pstr "0") (pstr "a") (.str (pstr "u")) (.int 0) .identified (pstr "u:0")).client_id)]))) ∧
    dictGet (dictSet [(pstr "TO", PyVal.str (pstr "0"))] (pstr "FROM") (.str (ClientConn.mk (pstr "0") (pstr "a") (.str (pstr "u")) (.int 0) .identified (pstr "u:0")).client_id)) (pstr "FROM") =
      some (.str (ClientConn.mk (pstr "0") (pstr "a") (.str (pstr "u")) (.int 0) .identified (pstr "u:0")).client_id) ∧
    (∀ q, dictGet [(pstr "TO", PyVal.str (pstr "0"))] (pstr "SEQ") = some q →
      dictGet (dictSet [(pstr "TO", PyVal.str (pstr "0"))] (pstr "FROM") (.str (ClientConn.mk (pstr "0") (pstr "a") (.str (pstr "u")) (.int 0) .identified (pstr "u:0")).client_id)) (pstr "SEQ") = some q) ∧
    (∀ t a, dictGet (replyArgs t a) (pstr "IRY") = some (.int 1)) ∧
    (∀ t a, dictGet (replyArgs t a) (pstr "clientID") = some t) ∧
    (∀ t a q, dictGet a (pstr "SEQ") = some q →
      dictGet (replyArgs t a) (pstr "SEQ") = some q) :=
  C4_unicast_trichotomy [ClientConn.mk (pstr "0") (pstr "a") (.str (pstr "u")) (.int 0) .identified (pstr "u:0")] (fun _ => true) (ClientConn.mk (pstr "0") (pstr "a") (.str (pstr "u")) (.int 0) .identified (pstr "u:0")) (pstr "PING") [(pstr "TO", PyVal.str (pstr "0"))] (PyVal.str (pstr "0"))
    (by decide) (by decide) (by decide) (by decide)

/-- In a registry with no duplicate ids, two entries with equal ids are the
same entry. -/
theorem registry_key_inj (reg : Registry) :
    (reg.map ClientConn.client_id).Nodup →
    ∀ c ∈ reg, ∀ c2 ∈ reg, c.client_id = c2.client_id → c = c2 := by
  induction reg with
  | nil => intro _ c hc; cases hc
  | cons a rest ih =>
    intro hnd c hc c2 hc2 he
    simp only [List.map_cons, List.nodup_cons] at hnd
    rcases List.mem_cons.mp hc with h1 | h1 <;>
      rcases List.mem_cons.mp hc2 with h2 | h2
    · rw [h1, h2]
    · have hm : c2.client_id ∈ rest.map ClientConn.client_id :=
        List.mem_map_of_mem ClientConn.client_id h2
      rw [← he, h1] at hm
      exact absurd hm hnd.1
    · have hm : c.client_id ∈ rest.map ClientConn.client_id :=
        List.mem_map_of_mem ClientConn.client_id h1
      rw [he, h2] at hm
      exact absurd hm hnd.1
    · exact ih hnd.2 c h1 c2 h2 he

/-- C5 counterexample: a frame with no `TO` key, a non-reserved message id
and no discord divert (its `player` value is the integer 5, not a string),
sent while an eligible IDENTIFIED non-private peer exists, makes the router
raise (`.lower()` on an int) and attempt no send at all. -/
theorem C5_counterexample :
    on_client_data [(ClientConn.mk (pstr "0") (pstr "a0") (.str (pstr "u0")) (.int 0) .identified (pstr "u0:0")), (ClientConn.mk (pstr "1") (pstr "a1") (.str (pstr "u1")) (.int 0) .identified (pstr "u1:1"))] (fun _ => true) (ClientConn.mk (pstr "0") (pstr "a0") (.str (pstr "u0")) (.int 0) .identified (pstr "u0:0")) (pstr "CHAT")
        [(pstr "player", PyVal.int 5)] = .error () ∧
    dictGet [(pstr "player", PyVal.int 5)] (pstr "TO") = Option.none ∧
    dictGet [(pstr "player", PyVal.int 5)] (pstr "player") = some (PyVal.int 5) ∧
    (ClientConn.mk (pstr "1") (pstr "a1") (.str (pstr "u1")) (.int 0) .identified (pstr "u1:1")).state = CState.identified ∧
    pyTruthy (ClientConn.mk (pstr "1") (pstr "a1") (.str (pstr "u1")) (.int 0) .identified (pstr "u1:1")).private_only = false ∧
    (ClientConn.mk (pstr "1") (pstr "a1") (.str (pstr "u1")) (.int 0) .identified (pstr "u1:1")).client_id ≠ (ClientConn.mk (pstr "0") (pstr "a0") (.str (pstr "u0")) (.int 0) .identified (pstr "u0:0")).client_id := by
  decide

/-- C5 (amended): a broadcast frame (no `TO` key, message id not handled by
a `process_` method) from sender `client` splits on the `player` value.
When `player` is absent, a bytes value, or a string not equal to "discord"
case-insensitively, a send is attempted exactly at the clients that are
IDENTIFIED, not private-only and distinct from the sender, each carrying
`args` with `FROM` stamped to the sender id, and the sender itself receives
nothing.  When `player` holds any other value (an int, None, or another
object), `_route_message` raises `AttributeError` from `.lower()` and no
send is attempted. -/
theorem C5_broadcast_targets (reg : Registry) (ω : PyStr → Bool)
    (client : ClientConn) (message_id : PyStr) (args : Args)
    (hnd : (reg.map ClientConn.client_id).Nodup)
    (hm1 : message_id ≠ pstr "HELLO") (hm2 : message_id ≠ pstr "LIST_CLIENTS")
    (hTO : dictGet args (pstr "TO") = Option.none) :
    ((∀ v, dictGet args (pstr "player") = some v →
        (∃ s, v = PyVal.str s ∧ pyLower s ≠ pstr "discord") ∨
        (∃ b, v = PyVal.bytes b)) →
      ∃ evs, on_client_data reg ω client message_id args = .ok (reg, evs) ∧
        (∀ c ∈ reg,
          ((∃ ok, Event.sent c.client_id message_id
              (dictSet args (pstr "FROM") (.str client.client_id)) ok ∈ evs) ↔
            (c.state = CState.identified ∧ pyTruthy c.private_only = false ∧
              c.client_id ≠ client.client_id))) ∧
        (∀ e ∈ evs, ∃ c, c ∈ reg ∧ c.state = CState.identified ∧
          pyTruthy c.private_only = false ∧ c.client_id ≠ client.client_id ∧
          e = Event.sent c.client_id message_id
            (dictSet args (pstr "FROM") (.str client.client_id)) (ω c.client_id)) ∧
        (∀ m2 a2 ok, Event.sent client.client_id m2 a2 ok ∉ evs) ∧
        dictGet (dictSet args (pstr "FROM") (.str client.client_id)) (pstr "FROM") =
          some (.str client.client_id)) ∧
    (∀ v, dictGet args (pstr "player") = some v →
      (∀ s, v ≠ PyVal.str s) → (∀ b, v ≠ PyVal.bytes b) →
      on_client_data reg ω client message_id args = .error ()) := by
  constructor
  · intro hplayer
    have hroute : route_message reg ω client message_id args =
        .ok (route_broadcast reg ω client message_id args) := by
      unfold route_message
      rw [hTO]
      cases hpv : dictGet args (pstr "player") with
      | none => rfl
      | some v =>
        rcases hplayer v hpv with ⟨s, rfl, hs⟩ | ⟨b, rfl⟩
        · exact if_neg hs
        · rfl
    have h1 : on_client_data reg ω client message_id args =
        .ok (reg, route_broadcast reg ω client message_id args) := by
      unfold on_client_data
      rw [if_neg hm1, if_neg hm2, hroute]
      rfl
    refine ⟨route_broadcast reg ω client message_id args, h1, ?_, ?_, ?_,
      dictGet_set_self args (pstr "FROM") (.str client.client_id)⟩
    · intro c hc
      constructor
      · rintro ⟨ok, hok⟩
        simp only [route_broadcast, MainServer.broadcast, List.mem_map,
          List.mem_filter, decide_eq_true_eq] at hok
        obtain ⟨c2, ⟨hc2, hprop⟩, heq⟩ := hok
        injection heq with e1 e2 e3 e4
        have hcc : c2 = c := registry_key_inj reg hnd c2 hc2 c hc e1
        subst hcc
        simp only [List.mem_singleton] at hprop
        exact ⟨hprop.2.1, hprop.2.2, hprop.1⟩
      · rintro ⟨hst, hpo, hne⟩
        refine ⟨ω c.client_id, ?_⟩
        simp only [route_broadcast, MainServer.broadcast, List.mem_map,
          List.mem_filter, decide_eq_true_eq]
        refine ⟨c, ⟨hc, ?_, hst, hpo⟩, rfl⟩
        simp only [List.mem_singleton]
        exact hne
    · intro e he
      simp only [route_broadcast, MainServer.broadcast, List.mem_map,
        List.mem_filter, decide_eq_true_eq] at he
      obtain ⟨c, ⟨hc, hprop⟩, rfl⟩ := he
      simp only [List.mem_singleton] at hprop
      exact ⟨c, hc, hprop.2.1, hprop.2.2, hprop.1, rfl⟩
    · intro m2 a2 ok hmem
      simp only [route_broadcast, MainServer.broadcast, List.mem_map,
        List.mem_filter, decide_eq_true_eq] at hmem
      obtain ⟨c, ⟨_, hprop⟩, heq⟩ := hmem
      injection heq with e1 e2 e3 e4
      simp only [List.mem_singleton] at hprop
      exact hprop.1 e1
  · intro v hv hns hnb
    have hroute : route_message reg ω client message_id args = .error () := by
      unfold route_message
      rw [hTO, hv]
      cases v with
      | str s => exact absurd rfl (hns s)
      | bytes b => exact absurd rfl (hnb b)
      | int n => rfl
      | none => rfl
      | other p => rfl
    unfold on_client_data
    rw [if_neg hm1, if_neg hm2, hroute]
    rfl

/-- C5 witness: the amended characterisation at a concrete four-client
registry (sender, one eligible peer, one unidentified peer, one private-only
peer). -/
theorem C5_witness :
    ((∀ v, dictGet [(pstr "SEQ", PyVal.int 1)] (pstr "player") = some v →
        (∃ s, v = PyVal.str s ∧ pyLower s ≠ pstr "discord") ∨
        (∃ b, v = PyVal.bytes b)) →
      ∃ evs, on_client_data [(ClientConn.mk (pstr "0") (pstr "a0") (.str (pstr "u0")) (.int 0) .identified (pstr "u0:0")), (ClientConn.mk (pstr "1") (pstr "a1") (.str (pstr "u1")) (.int 0) .identified (pstr "u1:1")), (ClientConn.mk (pstr "2") (pstr "a2") (.str (pstr "Unknown")) (.int 0) .notIdentified (pstr "Unknown:2")), (ClientConn.mk (pstr "3") (pstr "a3") (.str (pstr "u3")) (.int 1) .identified (pstr "u3:3"))] (fun _ => true) (ClientConn.mk (pstr "0") (pstr "a0") (.str (pstr "u0")) (.int 0) .identified (pstr "u0:0")) (pstr "CHAT") [(pstr "SEQ", PyVal.int 1)] =
          .ok ([(ClientConn.mk (pstr "0") (pstr "a0") (.str (pstr "u0")) (.int 0) .identified (pstr "u0:0")), (ClientConn.mk (pstr "1") (pstr "a1") (.str (pstr "u1")) (.int 0) .identified (pstr "u1:1")), (ClientConn.mk (pstr "2") (pstr "a2") (.str (pstr "Unknown")) (.int 0) .notIdentified (pstr "Unknown:2")), (ClientConn.mk (pstr "3") (pstr "a3") (.str (pstr "u3")) (.int 1) .identified (pstr "u3:3"))], evs) ∧
        (∀ c ∈ [(ClientConn.mk (pstr "0") (pstr "a0") (.str (pstr "u0")) (.int 0) .identified (pstr "u0:0")), (ClientConn.mk (pstr "1") (pstr "a1") (.str (pstr "u1")) (.int 0) .identified (pstr "u1:1")), (ClientConn.mk (pstr "2") (pstr "a2") (.str (pstr "Unknown")) (.int 0) .notIdentified (pstr "Unknown:2")), (ClientConn.mk (pstr "3") (pstr "a3") (.str (pstr "u3")) (.int 1) .identified (pstr "u3:3"))],
          ((∃ ok, Event.sent c.client_id (pstr "CHAT") (dictSet [(pstr "SEQ", PyVal.int 1)] (pstr "FROM") (.str (ClientConn.mk (pstr "0") (pstr "a0") (.str (pstr "u0")) (.int 0) .identified (pstr "u0:0")).client_id)) ok ∈ evs) ↔
            (c.state = CState.identified ∧ pyTruthy c.private_only = false ∧
              c.client_id ≠ (ClientConn.mk (pstr "0") (pstr "a0") (.str (pstr "u0")) (.int 0) .identified (pstr "u0:0")).client_id))) ∧
        (∀ e ∈ evs, ∃ c, c ∈ [(ClientConn.mk (pstr "0") (pstr "a0") (.str (pstr "u0")) (.int 0) .identified (pstr "u0:0")), (ClientConn.mk (pstr "1") (pstr "a1") (.str (pstr "u1")) (.int 0) .identified (pstr "u1:1")), (ClientConn.mk (pstr "2") (pstr "a2") (.str (pstr "Unknown")) (.int 0) .notIdentified (pstr "Unknown:2")), (ClientConn.mk (pstr "3") (pstr "a3") (.str (pstr "u3")) (.int 1) .identified (pstr "u3:3"))] ∧ c.state = CState.identified ∧
          pyTruthy c.private_only = false ∧ c.client_id ≠ (ClientConn.mk (pstr "0") (pstr "a0") (.str (pstr "u0")) (.int 0) .identified (pstr "u0:0")).client_id ∧
          e = Event.sent c.client_id (pstr "CHAT") (dictSet [(pstr "SEQ", PyVal.int 1)] (pstr "FROM") (.str (ClientConn.mk (pstr "0") (pstr "a0") (.str (pstr "u0")) (.int 0) .identified (pstr "u0:0")).client_id)) ((fun _ => true) c.client_id)) ∧
        (∀ m2 a2 ok, Event.sent (ClientConn.mk (pstr "0") (pstr "a0") (.str (pstr "u0")) (.int 0) .identified (pstr "u0:0")).client_id m2 a2 ok ∉ evs) ∧
        dictGet (dictSet [(pstr "SEQ", PyVal.int 1)] (pstr "FROM") (.str (ClientConn.mk (pstr "0") (pstr "a0") (.str (pstr "u0")) (.int 0) .identified (pstr "u0:0")).client_id)) (pstr "FROM") = some (.str (ClientConn.mk (pstr "0") (pstr "a0") (.str (pstr "u0")) (.int 0) .identified (pstr "u0:0")).client_id)) ∧
    (∀ v, dictGet [(pstr "SEQ", PyVal.int 1)] (pstr "player") = some v →
      (∀ s, v ≠ PyVal.str s) → (∀ b, v ≠ PyVal.bytes b) →
      on_client_data [(ClientConn.mk (pstr "0") (pstr "a0") (.str (pstr "u0")) (.int 0) .identified (pstr "u0:0")), (ClientConn.mk (pstr "1") (pstr "a1") (.str (pstr "u1")) (.int 0) .identified (pstr "u1:1")), (ClientConn.mk (pstr "2") (pstr "a2") (.str (pstr "Unknown")) (.int 0) .notIdentified (pstr "Unknown:2")), (ClientConn.mk (pstr "3") (pstr "a3") (.str (pstr "u3")) (.int 1) .identified (pstr "u3:3"))] (fun _ => true) (ClientConn.mk (pstr "0") (pstr "a0") (.str (pstr "u0")) (.int 0) .identified (pstr "u0:0")) (pstr "CHAT") [(pstr "SEQ", PyVal.int 1)] = .error ()) :=
  C5_broadcast_targets [(ClientConn.mk (pstr "0") (pstr "a0") (.str (pstr "u0")) (.int 0) .identified (pstr "u0:0")), (ClientConn.mk (pstr "1") (pstr "a1") (.str (pstr "u1")) (.int 0) .identified (pstr "u1:1")), (ClientConn.mk (pstr "2") (pstr "a2") (.str (pstr "Unknown")) (.int 0) .notIdentified (pstr "Unknown:2")), (ClientConn.mk (pstr "3") (pstr "a3") (.str (pstr "u3")) (.int 1) .identified (pstr "u3:3"))] (fun _ => true) (ClientConn.mk (pstr "0") (pstr "a0") (.str (pstr "u0")) (.int 0) .identified (pstr "u0:0")) (pstr "CHAT") [(pstr "SEQ", PyVal.int 1)]
    (by decide) (by decide) (by decide) (by decide)

/-- C6: a broadcast frame (no `TO` key) whose `player` argument is a string
equal to "discord" case-insensitively is diverted to the Discord webhook
sink exactly once, with `args["comm"]` (default the empty string) as the
content; no send to any peer and no reply to the sender occurs, and the
content is drawn from `args` before any `FROM` stamping. -/
theorem C6_discord_divert (reg : Registry) (ω : PyStr → Bool)
    (client : ClientConn) (message_id : PyStr) (args : Args) (s : PyStr)
    (hm1 : message_id ≠ pstr "HELLO") (hm2 : message_id ≠ pstr "LIST_CLIENTS")
    (hTO : dictGet args (pstr "TO") = Option.none)
    (hp : dictGet args (pstr "player") = some (.str s))
    (hd : pyLower s = pstr "discord") :
    ∃ comm, on_client_data reg ω client message_id args =
        .ok (reg, [Event.discord comm]) ∧
      comm = (dictGet args (pstr "comm")).getD (PyVal.str (pstr "")) ∧
      (∀ v, dictGet args (pstr "comm") = some v → comm = v) ∧
      (∀ r m2 a2 ok, Event.sent r m2 a2 ok ∉ [Event.discord comm]) ∧
      (∀ c2, Event.closed c2 ∉ [Event.discord comm]) := by
  have hroute : route_message reg ω client message_id args =
      .ok [Event.discord ((dictGet args (pstr "comm")).getD (PyVal.str (pstr "")))] := by
    unfold route_message
    rw [hTO, hp]
    exact if_pos hd
  refine ⟨(dictGet args (pstr "comm")).getD (PyVal.str (pstr "")), ?_, rfl, ?_, ?_, ?_⟩
  · unfold on_client_data
    rw [if_neg hm1, if_neg hm2, hroute]
    rfl
  · intro v hv
    rw [hv]
    rfl
  · intro r m2 a2 ok hmem
    simp only [List.mem_singleton] at hmem
    exact Event.noConfusion hmem
  · intro c2 hmem
    simp only [List.mem_singleton] at hmem
    exact Event.noConfusion hmem

/-- C6 witness: the divert at a concrete frame whose `player` is "Discord"
(mixed case) and whose `comm` is present. -/
theorem C6_witness :
    ∃ comm, on_client_data [] (fun _ => true)
        (ClientConn.new (pstr "0") (pstr "a0")) (pstr "CHAT") [(pstr "player", PyVal.str (pstr "Discord")), (pstr "comm", PyVal.str (pstr "hi"))] =
        .ok ([], [Event.discord comm]) ∧
      comm = (dictGet [(pstr "player", PyVal.str (pstr "Discord")), (pstr "comm", PyVal.str (pstr "hi"))] (pstr "comm")).getD (PyVal.str (pstr "")) ∧
      (∀ v, dictGet [(pstr "player", PyVal.str (pstr "Discord")), (pstr "comm", PyVal.str (pstr "hi"))] (pstr "comm") = some v → comm = v) ∧
      (∀ r m2 a2 ok, Event.sent r m2 a2 ok ∉ [Event.discord comm]) ∧
      (∀ c2, Event.closed c2 ∉ [Event.discord comm]) :=
  C6_discord_divert [] (fun _ => true) (ClientConn.new (pstr "0") (pstr "a0"))
    (pstr "CHAT") [(pstr "player", PyVal.str (pstr "Discord")), (pstr "comm", PyVal.str (pstr "hi"))] (pstr "Discord")
    (by decide) (by decide) (by decide) (by decide) (by decide)

/-- Unfolding of the fst of the client-list loop at a cons cell. -/
theorem buildClientList_fst_cons (c : ClientConn) (rest : Registry) (i : Nat) :
    (buildClientList (c :: rest) i).1 =
      if c.state = CState.identified then
        (pstr "client" ++ natToDec i, PyVal.str c.client_id) ::
        (pstr "clientUserAgent" ++ natToDec i, c.user_agent) ::
        (buildClientList rest (i + 1)).1
      else (buildClientList rest i).1 := by
  by_cases hst : c.state = CState.identified
  · simp only [buildClientList, if_pos hst]
  · simp only [buildClientList, if_neg hst]

/-- Unfolding of the snd (the counter) of the client-list loop at a cons
cell. -/
theorem buildClientList_snd_cons (c : ClientConn) (rest : Registry) (i : Nat) :
    (buildClientList (c :: rest) i).2 =
      if c.state = CState.identified then (buildClientList rest (i + 1)).2
      else (buildClientList rest i).2 := by
  by_cases hst : c.state = CState.identified
  · simp only [buildClientList, if_pos hst]
  · simp only [buildClientList, if_neg hst]

/-- Spec-modelled client list: one `client<i>` / `clientUserAgent<i>` pair
per IDENTIFIED client, `i` starting at 0 in registry iteration order.
This definition follows the specification text, not the code; the
refinement theorem compares it with `process_LIST_CLIENTS`. -/
def specListClientsPairs (reg : Registry) : Args :=
  (List.enumFrom 0 (reg.filter (fun c => decide (c.state = CState.identified)))).flatMap
    (fun p => [(pstr "client" ++ natToDec p.1, PyVal.str p.2.client_id),
               (pstr "clientUserAgent" ++ natToDec p.1, p.2.user_agent)])

/-- Spec-modelled LIST_CLIENTS reply: the pairs, a `count` equal to the
number of IDENTIFIED clients, the sender SEQ echoed when present, and
`IRY = 1`.  Follows the specification text, not the code. -/
def specListClientsReply (reg : Registry) (args : Args) : Args :=
  specListClientsPairs reg ++
    [(pstr "count",
      PyVal.int ((reg.filter (fun c => decide (c.state = CState.identified))).length))] ++
    (match dictGet args (pstr "SEQ") with
     | some s => [(pstr "SEQ", s)]
     | none => []) ++
    [(pstr "IRY", PyVal.int 1)]

/-- The client-list loop emits exactly the spec-modelled pair list. -/
theorem buildClientList_fst_eq (reg : Registry) : ∀ i : Nat,
    (buildClientList reg i).1 =
      (List.enumFrom i (reg.filter (fun c => decide (c.state = CState.identified)))).flatMap
        (fun p => [(pstr "client" ++ natToDec p.1, PyVal.str p.2.client_id),
                   (pstr "clientUserAgent" ++ natToDec p.1, p.2.user_agent)]) := by
  induction reg with
  | nil => intro i; rfl
  | cons c rest ih =>
    intro i
    rw [buildClientList_fst_cons, List.filter_cons]
    by_cases hst : c.state = CState.identified
    · rw [if_pos hst, if_pos (decide_eq_true hst), ih (i + 1)]
      rfl
    · rw [if_neg hst, if_neg (fun h => hst (of_decide_eq_true h))]
      exact ih i

/-- The loop counter ends at its start plus the number of IDENTIFIED
clients. -/
theorem buildClientList_snd_eq (reg : Registry) : ∀ i : Nat,
    (buildClientList reg i).2 =
      i + (reg.filter (fun c => decide (c.state = CState.identified))).length := by
  induction reg with
  | nil => intro i; rfl
  | cons c rest ih =>
    intro i
    rw [buildClientList_snd_cons, List.filter_cons]
    by_cases hst : c.state = CState.identified
    · rw [if_pos hst, if_pos (decide_eq_true hst), ih (i + 1), List.length_cons]
      omega
    · rw [if_neg hst, if_neg (fun h => hst (of_decide_eq_true h))]
      exact ih i

/-- Every key emitted by the client-list loop extends `"client"` or
`"clientUserAgent"`. -/
theorem buildClientList_keys (reg : Registry) : ∀ i : Nat,
    ∀ p ∈ (buildClientList reg i).1,
      (∃ x, p.1 = pstr "client" ++ x) ∨ (∃ x, p.1 = pstr "clientUserAgent" ++ x) := by
  induction reg with
  | nil => intro i p hp; cases hp
  | cons c rest ih =>
    intro i p hp
    rw [buildClientList_fst_cons] at hp
    by_cases hst : c.state = CState.identified
    · rw [if_pos hst] at hp
      rcases List.mem_cons.mp hp with rfl | hp2
      · exact Or.inl ⟨natToDec i, rfl⟩
      · rcases List.mem_cons.mp hp2 with rfl | hp3
        · exact Or.inr ⟨natToDec i, rfl⟩
        · exact ih (i + 1) p hp3
    · rw [if_neg hst] at hp
      exact ih i p hp

/-- A string extended by a prefix longer than `k` never equals `k`. -/
theorem prefix_append_ne (pre x k : PyStr) (h : k.length < pre.length) :
    pre ++ x ≠ k := by
  intro he
  have hl := congrArg List.length he
  rw [List.length_append] at hl
  omega

/-- A key absent from every binding looks up to `none`. -/
theorem dictGet_of_forall_ne {l : Args} {k : PyStr} (h : ∀ p ∈ l, p.1 ≠ k) :
    dictGet l k = Option.none := by
  induction l with
  | nil => rfl
  | cons a rest ih =>
    obtain ⟨k2, v2⟩ := a
    unfold dictGet
    rw [if_neg (h (k2, v2) (List.mem_cons_self (k2, v2) rest))]
    exact ih (fun p hp => h p (List.mem_cons_of_mem (k2, v2) hp))

/-- Any key shorter than 6 characters is fresh in the pair list. -/
theorem buildClientList_fresh (reg : Registry) (i : Nat) (k : PyStr)
    (hk : k.length < 6) : dictGet (buildClientList reg i).1 k = Option.none := by
  apply dictGet_of_forall_ne
  intro p hp
  rcases buildClientList_keys reg i p hp with ⟨x, hx⟩ | ⟨x, hx⟩
  · rw [hx]
    exact prefix_append_ne _ _ _ (by
      rw [show (pstr "client").length = 6 from rfl]
      exact hk)
  · rw [hx]
    exact prefix_append_ne _ _ _ (by
      rw [show (pstr "clientUserAgent").length = 15 from rfl]
      omega)

/-- Setting a key that is absent appends the binding. -/
theorem dictSet_of_get_none {l : Args} {k : PyStr} (v : PyVal)
    (h : dictGet l k = Option.none) : dictSet l k v = l ++ [(k, v)] := by
  induction l with
  | nil => rfl
  | cons a rest ih =>
    obtain ⟨k2, v2⟩ := a
    unfold dictGet at h
    unfold dictSet
    by_cases hk : k2 = k
    · rw [if_pos hk] at h
      cases h
    · rw [if_neg hk] at h
      rw [if_neg hk, ih h]
      rfl

/-- Lookup skips over a list the key is absent from. -/
theorem dictGet_append_none {l1 : Args} (l2 : Args) {k : PyStr}
    (h : dictGet l1 k = Option.none) : dictGet (l1 ++ l2) k = dictGet l2 k := by
  induction l1 with
  | nil => rfl
  | cons a rest ih =>
    obtain ⟨k2, v2⟩ := a
    unfold dictGet at h
    by_cases hk : k2 = k
    · rw [if_pos hk] at h
      cases h
    · rw [if_neg hk] at h
      rw [List.cons_append]
      show (if k2 = k then some v2 else dictGet (rest ++ l2) k) = dictGet l2 k
      rw [if_neg hk]
      exact ih h

/-- A singleton dict with a different key looks up to `none`. -/
theorem dictGet_single_ne (k1 k2 : PyStr) (v : PyVal) (h : k1 ≠ k2) :
    dictGet [(k1, v)] k2 = Option.none := by
  unfold dictGet
  rw [if_neg h]
  rfl

/-- C7: refinement of the LIST_CLIENTS handler against the spec-modelled
reply.  The handler sends exactly one LIST_CLIENTS message to the caller,
whose arguments are the `client<i>`/`clientUserAgent<i>` pairs of the
IDENTIFIED clients in registry order starting at 0, a `count` equal to the
number of identified clients, the caller's SEQ echoed when present, and
`IRY = 1`; NOT_IDENTIFIED entries contribute no pair and are not counted. -/
theorem C7_list_clients_refinement (reg : Registry) (ω : PyStr → Bool)
    (client : ClientConn) (args : Args) :
    process_LIST_CLIENTS reg ω client args =
      [Event.sent client.client_id (pstr "LIST_CLIENTS")
        (specListClientsReply reg args) (ω client.client_id)] := by
  have hcnt : (buildClientList reg 0).2 =
      (reg.filter (fun c => decide (c.state = CState.identified))).length := by
    rw [buildClientList_snd_eq]
    exact Nat.zero_add _
  have hpairs : (buildClientList reg 0).1 = specListClientsPairs reg :=
    buildClientList_fst_eq reg 0
  have hcf : dictGet (buildClientList reg 0).1 (pstr "count") = Option.none :=
    buildClientList_fresh reg 0 (pstr "count") (by decide)
  have hIRY : dictGet ((buildClientList reg 0).1 ++
      [(pstr "count", PyVal.int (buildClientList reg 0).2)]) (pstr "IRY") =
      Option.none := by
    rw [dictGet_append_none _ (buildClientList_fresh reg 0 (pstr "IRY") (by decide))]
    exact dictGet_single_ne _ _ _ (by decide)
  unfold process_LIST_CLIENTS
  cases hseq : dictGet args (pstr "SEQ") with
  | none =>
    have hspec : specListClientsReply reg args =
        specListClientsPairs reg ++
          [(pstr "count",
            PyVal.int ((reg.filter (fun c => decide (c.state = CState.identified))).length))] ++
          [] ++ [(pstr "IRY", PyVal.int 1)] := by
      unfold specListClientsReply
      rw [hseq]
    show [Event.sent client.client_id (pstr "LIST_CLIENTS")
        (dictSet (dictSet (buildClientList reg 0).1 (pstr "count")
          (PyVal.int (buildClientList reg 0).2)) (pstr "IRY") (PyVal.int 1))
        (ω client.client_id)] =
      [Event.sent client.client_id (pstr "LIST_CLIENTS")
        (specListClientsReply reg args) (ω client.client_id)]
    rw [dictSet_of_get_none _ hcf, dictSet_of_get_none _ hIRY, hspec,
      List.append_nil, hpairs, hcnt]
  | some s =>
    have hSEQ : dictGet ((buildClientList reg 0).1 ++
        [(pstr "count", PyVal.int (buildClientList reg 0).2)]) (pstr "SEQ") =
        Option.none := by
      rw [dictGet_append_none _ (buildClientList_fresh reg 0 (pstr "SEQ") (by decide))]
      exact dictGet_single_ne _ _ _ (by decide)
    have hIRY2 : dictGet (((buildClientList reg 0).1 ++
        [(pstr "count", PyVal.int (buildClientList reg 0).2)]) ++
        [(pstr "SEQ", s)]) (pstr "IRY") = Option.none := by
      rw [dictGet_append_none _ hIRY]
      exact dictGet_single_ne _ _ _ (by decide)
    have hspec : specListClientsReply reg args =
        specListClientsPairs reg ++
          [(pstr "count",
            PyVal.int ((reg.filter (fun c => decide (c.state = CState.identified))).length))] ++
          [(pstr "SEQ", s)] ++ [(pstr "IRY", PyVal.int 1)] := by
      unfold specListClientsReply
      rw [hseq]
    show [Event.sent client.client_id (pstr "LIST_CLIENTS")
        (dictSet (dictSet (dictSet (buildClientList reg 0).1 (pstr "count")
          (PyVal.int (buildClientList reg 0).2)) (pstr "SEQ") s)
          (pstr "IRY") (PyVal.int 1))
        (ω client.client_id)] =
      [Event.sent client.client_id (pstr "LIST_CLIENTS")
        (specListClientsReply reg args) (ω client.client_id)]
    rw [dictSet_of_get_none _ hcf, dictSet_of_get_none _ hSEQ,
      dictSet_of_get_none _ hIRY2, hspec, hpairs, hcnt]

/-- Updating a key in place rewrites the entry found for that key, when the
update preserves ids. -/
theorem registryGet_updateClient_self (reg : Registry) (cid : PyStr)
    (f : ClientConn → ClientConn) (hf : ∀ x, (f x).client_id = x.client_id) :
    ∀ c, registryGet reg cid = some c →
      registryGet (updateClient reg cid f) cid = some (f c) := by
  induction reg with
  | nil => intro c h; exact Option.noConfusion h
  | cons a rest ih =>
    intro c h
    unfold registryGet at h
    unfold updateClient registryGet
    rw [List.map_cons]
    by_cases ha : a.client_id = cid
    · have hpa : (a.client_id == cid) = true := beq_iff_eq.mpr ha
      rw [@List.find?_cons_of_pos ClientConn (fun c => c.client_id == cid) a rest hpa] at h
      obtain rfl := Option.some.inj h
      have hnew : ((if (a.client_id == cid) = true then f a else a).client_id == cid) =
          true := by
        rw [if_pos hpa, hf]
        exact hpa
      rw [@List.find?_cons_of_pos ClientConn (fun c2 => c2.client_id == cid) _ _ hnew]
      rw [if_pos hpa]
    · have hpa : (a.client_id == cid) = false := beq_eq_false_iff_ne.mpr ha
      have hpa2 : ¬ ((a.client_id == cid) = true) := by
        rw [hpa]
        exact Bool.false_ne_true
      rw [@List.find?_cons_of_neg ClientConn (fun c => c.client_id == cid) a rest hpa2] at h
      have hnew : ¬ (((if (a.client_id == cid) = true then f a else a).client_id == cid) =
          true) := by
        rw [if_neg hpa2, hpa]
        exact Bool.false_ne_true
      rw [@List.find?_cons_of_neg ClientConn (fun c2 => c2.client_id == cid) _ _ hnew]
      exact ih c h

/-- Updating one key leaves the lookup of every other key unchanged, when
the update preserves ids. -/
theorem registryGet_updateClient_ne (reg : Registry) (cid cid2 : PyStr)
    (f : ClientConn → ClientConn) (hf : ∀ x, (f x).client_id = x.client_id)
    (hne : cid2 ≠ cid) :
    registryGet (updateClient reg cid f) cid2 = registryGet reg cid2 := by
  induction reg with
  | nil => rfl
  | cons a rest ih =>
    unfold updateClient registryGet
    rw [List.map_cons]
    by_cases ha : a.client_id = cid2
    · have hcond : ¬ ((a.client_id == cid) = true) := by
        intro hh
        have h2 := eq_of_beq hh
        rw [ha] at h2
        exact hne h2
      have hga : (if (a.client_id == cid) = true then f a else a) = a := if_neg hcond
      rw [hga]
      have hpa : (a.client_id == cid2) = true := beq_iff_eq.mpr ha
      rw [@List.find?_cons_of_pos ClientConn (fun c => c.client_id == cid2) a
          (List.map (fun c => if (c.client_id == cid) = true then f c else c) rest) hpa,
        @List.find?_cons_of_pos ClientConn (fun c => c.client_id == cid2) a rest hpa]
    · have hq : ¬ (((if (a.client_id == cid) = true then f a else a).client_id == cid2) =
          true) := by
        have hq0 : ((if (a.client_id == cid) = true then f a else a).client_id == cid2) =
            false := by
          by_cases hc : a.client_id = cid
          · rw [if_pos (beq_iff_eq.mpr hc), hf]
            exact beq_eq_false_iff_ne.mpr ha
          · rw [if_neg (fun hh => hc (eq_of_beq hh))]
            exact beq_eq_false_iff_ne.mpr ha
        rw [hq0]
        exact Bool.false_ne_true
      have hq2 : ¬ ((a.client_id == cid2) = true) := by
        rw [beq_eq_false_iff_ne.mpr ha]
        exact Bool.false_ne_true
      rw [@List.find?_cons_of_neg ClientConn (fun c => c.client_id == cid2) _ _ hq,
        @List.find?_cons_of_neg ClientConn (fun c => c.client_id == cid2) a rest hq2]
      exact ih

/-- The registry made by a successful HELLO from a NOT_IDENTIFIED client. -/
theorem process_HELLO_fst (reg : Registry) (ω : PyStr → Bool)
    (client : ClientConn) (args : Args)
    (hst : client.state = CState.notIdentified) :
    (process_HELLO reg ω client args).1 =
      updateClient reg client.client_id (fun c2 =>
        { c2 with
          user_agent := (dictGet args (pstr "userAgent")).getD (PyVal.str (pstr "Unknown")),
          private_only := (dictGet args (pstr "privateOnly")).getD (PyVal.int 0),
          state := CState.identified,
          name := pyStrOf ((dictGet args (pstr "userAgent")).getD
            (PyVal.str (pstr "Unknown"))) ++ pstr ":" ++ client.client_id }) := by
  unfold process_HELLO
  rw [if_pos hst]

/-- One server step never changes an entry that is already IDENTIFIED. -/
theorem serverStep_preserves_identified (ω : PyStr → Bool) (reg : Registry)
    (cid mid : PyStr) (args : Args) (id2 : PyStr) (c : ClientConn)
    (hget : registryGet reg id2 = some c) (hc : c.state = CState.identified) :
    registryGet (serverStep ω reg cid mid args) id2 = some c := by
  unfold serverStep
  cases hr : registryGet reg cid with
  | none => exact hget
  | some client =>
    show registryGet
      (match on_client_data reg ω client mid args with
       | Except.ok p => p.1
       | Except.error _ => reg) id2 = some c
    cases hd : on_client_data reg ω client mid args with
    | error e => exact hget
    | ok p =>
      show registryGet p.1 id2 = some c
      unfold on_client_data at hd
      by_cases hm1 : mid = pstr "HELLO"
      · rw [if_pos hm1] at hd
        obtain rfl := Except.ok.inj hd
        by_cases hst : client.state = CState.notIdentified
        · rw [process_HELLO_fst reg ω client args hst]
          by_cases hid : id2 = client.client_id
          · exfalso
            have hcid : client.client_id = cid := registryGet_client_id reg cid client hr
            rw [hid, hcid, hr] at hget
            obtain rfl := Option.some.inj hget
            rw [hst] at hc
            exact CState.noConfusion hc
          · rw [registryGet_updateClient_ne reg client.client_id id2
              (fun c2 =>
                { c2 with
                  user_agent := (dictGet args (pstr "userAgent")).getD
                    (PyVal.str (pstr "Unknown")),
                  private_only := (dictGet args (pstr "privateOnly")).getD (PyVal.int 0),
                  state := CState.identified,
                  name := pyStrOf ((dictGet args (pstr "userAgent")).getD
                    (PyVal.str (pstr "Unknown"))) ++ pstr ":" ++ client.client_id })
              (fun x => rfl) hid]
            exact hget
        · have hP : (process_HELLO reg ω client args).1 = reg := by
            unfold process_HELLO
            rw [if_neg hst]
          rw [hP]
          exact hget
      · rw [if_neg hm1] at hd
        by_cases hm2 : mid = pstr "LIST_CLIENTS"
        · rw [if_pos hm2] at hd
          obtain rfl := Except.ok.inj hd
          exact hget
        · rw [if_neg hm2] at hd
          cases hrt : route_message reg ω client mid args with
          | error e =>
            rw [hrt] at hd
            exact Except.noConfusion hd
          | ok evs =>
            rw [hrt] at hd
            obtain rfl := Except.ok.inj hd
            exact hget

/-- A whole trace never changes an entry that is already IDENTIFIED. -/
theorem runTrace_preserves_identified (ω : PyStr → Bool) :
    ∀ (trace : List (PyStr × PyStr × Args)) (reg : Registry) (id2 : PyStr)
      (c : ClientConn), registryGet reg id2 = some c →
      c.state = CState.identified →
      registryGet (runTrace ω reg trace) id2 = some c := by
  intro trace
  induction trace with
  | nil => intro reg id2 c hget _; exact hget
  | cons step rest ih =>
    intro reg id2 c hget hc
    obtain ⟨cid, mid, args⟩ := step
    show registryGet (runTrace ω (serverStep ω reg cid mid args) rest) id2 = some c
    exact ih (serverStep ω reg cid mid args) id2 c
      (serverStep_preserves_identified ω reg cid mid args id2 c hget hc) hc

/-- C8: connection lifecycle.  (1) A first well-formed HELLO from a
NOT_IDENTIFIED client makes exactly that registry entry IDENTIFIED, with
`user_agent` defaulting to "Unknown", `private_only` defaulting to false,
and the display name `"<user_agent>:<client_id>"`, leaving every other
entry unchanged; (2) a HELLO while IDENTIFIED closes the connection and
modifies no registry entry; (3) one server step never changes an entry that
is already IDENTIFIED; (4) hence along any trace the fields frozen at the
moment of identification never change. -/
theorem C8_identification_lifecycle (ω : PyStr → Bool) :
    (∀ reg client args, registryGet reg client.client_id = some client →
      client.state = CState.notIdentified →
      ∃ reg2 evs, on_client_data reg ω client (pstr "HELLO") args = .ok (reg2, evs) ∧
        registryGet reg2 client.client_id = some
          { client with
            user_agent := (dictGet args (pstr "userAgent")).getD (PyVal.str (pstr "Unknown")),
            private_only := (dictGet args (pstr "privateOnly")).getD (PyVal.int 0),
            state := CState.identified,
            name := pyStrOf ((dictGet args (pstr "userAgent")).getD
              (PyVal.str (pstr "Unknown"))) ++ pstr ":" ++ client.client_id } ∧
        (∀ id2 c2, id2 ≠ client.client_id → registryGet reg id2 = some c2 →
          registryGet reg2 id2 = some c2)) ∧
    (∀ reg client args, client.state = CState.identified →
      on_client_data reg ω client (pstr "HELLO") args =
        .ok (reg, [Event.closed client.client_id])) ∧
    (∀ reg cid mid args id2 c, registryGet reg id2 = some c →
      c.state = CState.identified →
      registryGet (serverStep ω reg cid mid args) id2 = some c) ∧
    (∀ trace reg id2 c, registryGet reg id2 = some c →
      c.state = CState.identified →
      registryGet (runTrace ω reg trace) id2 = some c) := by
  refine ⟨?_, ?_, ?_, ?_⟩
  · intro reg client args hget hst
    refine ⟨(process_HELLO reg ω client args).1, (process_HELLO reg ω client args).2,
      ?_, ?_, ?_⟩
    · unfold on_client_data
      rw [if_pos rfl]
    · rw [process_HELLO_fst reg ω client args hst]
      exact registryGet_updateClient_self reg client.client_id
        (fun c2 =>
                { c2 with
                  user_agent := (dictGet args (pstr "userAgent")).getD
                    (PyVal.str (pstr "Unknown")),
                  private_only := (dictGet args (pstr "privateOnly")).getD (PyVal.int 0),
                  state := CState.identified,
                  name := pyStrOf ((dictGet args (pstr "userAgent")).getD
                    (PyVal.str (pstr "Unknown"))) ++ pstr ":" ++ client.client_id })
        (fun x => rfl) client hget
    · intro id2 c2 hne hget2
      rw [process_HELLO_fst reg ω client args hst]
      rw [registryGet_updateClient_ne reg client.client_id id2
        (fun c2 =>
                { c2 with
                  user_agent := (dictGet args (pstr "userAgent")).getD
                    (PyVal.str (pstr "Unknown")),
                  private_only := (dictGet args (pstr "privateOnly")).getD (PyVal.int 0),
                  state := CState.identified,
                  name := pyStrOf ((dictGet args (pstr "userAgent")).getD
                    (PyVal.str (pstr "Unknown"))) ++ pstr ":" ++ client.client_id })
        (fun x => rfl) hne]
      exact hget2
  · intro reg client args hst
    unfold on_client_data
    rw [if_pos rfl]
    unfold process_HELLO
    rw [if_neg (fun hh => CState.noConfusion (hst ▸ hh : CState.identified = CState.notIdentified))]
  · exact fun reg cid mid args id2 c h hc =>
      serverStep_preserves_identified ω reg cid mid args id2 c h hc
  · exact fun trace reg id2 c h hc =>
      runTrace_preserves_identified ω trace reg id2 c h hc

/-- C8 witness: the lifecycle applied to a concrete fresh client (first
HELLO) and to a concrete identified entry across a trace. -/
theorem C8_witness :
    (∃ reg2 evs, on_client_data [(ClientConn.new (pstr "7") (pstr "a7"))] (fun _ => true) (ClientConn.new (pstr "7") (pstr "a7")) (pstr "HELLO")
        [(pstr "userAgent", PyVal.str (pstr "kore"))] = .ok (reg2, evs) ∧
      registryGet reg2 (ClientConn.new (pstr "7") (pstr "a7")).client_id = some
        { (ClientConn.new (pstr "7") (pstr "a7")) with
          user_agent := (dictGet [(pstr "userAgent", PyVal.str (pstr "kore"))] (pstr "userAgent")).getD (PyVal.str (pstr "Unknown")),
          private_only := (dictGet [(pstr "userAgent", PyVal.str (pstr "kore"))] (pstr "privateOnly")).getD (PyVal.int 0),
          state := CState.identified,
          name := pyStrOf ((dictGet [(pstr "userAgent", PyVal.str (pstr "kore"))] (pstr "userAgent")).getD
            (PyVal.str (pstr "Unknown"))) ++ pstr ":" ++ (ClientConn.new (pstr "7") (pstr "a7")).client_id } ∧
      (∀ id2 c2, id2 ≠ (ClientConn.new (pstr "7") (pstr "a7")).client_id → registryGet [(ClientConn.new (pstr "7") (pstr "a7"))] id2 = some c2 →
        registryGet reg2 id2 = some c2)) ∧
    registryGet (runTrace (fun _ => true) [(ClientConn.mk (pstr "7") (pstr "a7") (.str (pstr "kore")) (.int 0) .identified (pstr "kore:7"))]
      [(pstr "7", pstr "HELLO", []), (pstr "8", pstr "PING", [])]) (pstr "7") =
      some (ClientConn.mk (pstr "7") (pstr "a7") (.str (pstr "kore")) (.int 0) .identified (pstr "kore:7")) :=
  ⟨(C8_identification_lifecycle (fun _ => true)).1 [(ClientConn.new (pstr "7") (pstr "a7"))] (ClientConn.new (pstr "7") (pstr "a7")) [(pstr "userAgent", PyVal.str (pstr "kore"))]
      (by decide) (by decide),
   (C8_identification_lifecycle (fun _ => true)).2.2.2
      [(pstr "7", pstr "HELLO", []), (pstr "8", pstr "PING", [])] [(ClientConn.mk (pstr "7") (pstr "a7") (.str (pstr "kore")) (.int 0) .identified (pstr "kore:7"))]
      (pstr "7") (ClientConn.mk (pstr "7") (pstr "a7") (.str (pstr "kore")) (.int 0) .identified (pstr "kore:7")) (by decide) (by decide)⟩

end BusServer